import Mathlib

/-!
Verification of the authoritative Toepen game engine (src/server.js).

This file gives a shallow embedding of the server-side game-state machine:
cards, players, the per-room `gameState` record, and the state-mutating
operations of `processGameAction` and its helper functions.  JavaScript
arrays become `List`s, `null`/`undefined` sentinels become `Option`s (or the
literal `-1 : Int` where the code stores `-1`), and the (externally random)
shuffled deck is passed to the dealing functions as an explicit parameter.
Timer-scheduled callbacks are modelled as explicit state-to-state functions
(`...TimerBody`); fields that exist purely for client display
(`laundryResult`, `lastTrickWinner`, player `id`/`name` strings) are omitted
since no modelled operation reads them.
-/

namespace Toepen

/-- In-place update of one list entry, mirroring a JS array-element mutation. -/
def modifyAt {α : Type} (l : List α) (i : Nat) (f : α → α) : List α :=
  match l, i with
  | [], _ => []
  | a :: t, 0 => f a :: t
  | a :: t, n + 1 => a :: modifyAt t n f

/-- Writing one list entry, mirroring `arr[i] = v`. -/
def setAt {α : Type} (l : List α) (i : Nat) (v : α) : List α :=
  modifyAt l i (fun _ => v)

/-- A playing card as built by `createDeckAndDeal`: suit and rank symbols plus
the custom strength value (J=1 … 10=8).  The cosmetic `color` field, derived
from the suit and read by no modelled operation, is omitted. -/
structure Card where
  suit : String
  rank : String
  value : Nat
deriving DecidableEq

/-- One entry of `currentTrick`: `{ card, player }`. -/
structure Play where
  card : Card
  player : Nat
deriving DecidableEq

/-- A seated player's game-relevant fields (`points`, `hand`, `cardsVisible`).
The socket `id`, display `name` and redundant `index` fields are omitted. -/
structure Player where
  points : Nat
  hand : List Card
  cardsVisible : Bool
deriving DecidableEq

def defaultPlayer : Player := { points := 0, hand := [], cardsVisible := false }

/-- The closed set of `gamePhase` string constants used by server.js. -/
inductive GamePhase where
  | laundry
  | playing
  | toepResponse
  | blindToepResponse
  | armoede
  | roundEnd
  | gameEnd
deriving DecidableEq

/-- A recorded response in a toep/armoede/blind-toep response array
(`'accept'` or `'fold'`; a pending slot is `none`). -/
inductive Response where
  | accept
  | fold
deriving DecidableEq

/-- `gameState.pendingLaundry`: claimant index, claim type string
(`"witte"` or `"vuile"`), and the hand snapshot taken at claim time. -/
structure PendingLaundry where
  playerIndex : Nat
  type : String
  cards : List Card
deriving DecidableEq

/-- The per-room `gameState` record of server.js. -/
structure GameState where
  players : List Player
  currentPlayer : Nat
  round : Nat
  stakes : Nat
  gamePhase : GamePhase
  deck : List Card
  currentTrick : List Play
  tricksPlayed : Nat
  playersInRound : List Nat
  roundTrickWins : List Nat
  playerStakesOnEntry : List Nat
  lastToeper : Int
  awaitingInspection : Bool
  pendingLaundry : Option PendingLaundry
  leadSuit : Option String
  toepResponses : Option (List (Option Response))
  blindToepResponses : Option (List (Option Response))
  armoedeResponses : Option (List (Option Response))
  armoedePenalty : Nat
  armoedePlayers : List Nat
  blindToepCaller : Option Int
  pendingBlindToepResponse : Bool
  lastRoundWinner : Option Nat
deriving DecidableEq

/-! ## Dealing (createDeckAndDeal) -/

/-- The placeholder card the state filter substitutes for concealed cards:
`{ suit: 'hidden', rank: '?', value: 0 }`. -/
def placeholderCard : Card := { suit := "hidden", rank := "?", value := 0 }

/-- Pop `n` cards off the END of the deck (JS `deck.pop()` in a loop guarded
by `deck.length > 0`), returning the popped cards in pop order and the
remaining deck. -/
def dealCards : List Card → Nat → List Card × List Card
  | deck, 0 => ([], deck)
  | deck, n + 1 =>
    if deck = [] then ([], deck)
    else
      let c := deck.getLastD placeholderCard
      let rest := dealCards deck.dropLast n
      (c :: rest.1, rest.2)

/-- Deal 4 cards to every player in seating order, each hand popped from the
end of the shared deck. -/
def dealToPlayers : List Player → List Card → List Player × List Card
  | [], deck => ([], deck)
  | p :: ps, deck =>
    let h := dealCards deck 4
    let rest := dealToPlayers ps h.2
    ({ p with hand := h.1 } :: rest.1, rest.2)

/-- `hasArmoede`: some player with exactly 9 points is in the round. -/
def hasArmoede (gs : GameState) : Bool :=
  (List.range gs.players.length).any
    (fun i => decide ((gs.players.getD i defaultPlayer).points = 9) &&
              decide (i ∈ gs.playersInRound))

/-- `getArmoedePlayers`: indices of in-round players with exactly 9 points. -/
def getArmoedePlayers (gs : GameState) : List Nat :=
  (List.range gs.players.length).filter
    (fun i => decide ((gs.players.getD i defaultPlayer).points = 9) &&
              decide (i ∈ gs.playersInRound))

/-- `createDeckAndDeal`: the 32-card deck is built and Fisher–Yates shuffled
with `Math.random`; the resulting permutation is passed in here as
`shuffledDeck`.  Deals 4 cards to every player and reports `"armoede"` when
some in-round player sits at exactly 9 points. -/
def createDeckAndDeal (gs : GameState) (shuffledDeck : List Card) : GameState × String :=
  let dealt := dealToPlayers gs.players shuffledDeck
  let gs' := { gs with players := dealt.1, deck := dealt.2 }
  if hasArmoede gs' then (gs', "armoede") else (gs', "normal")

/-! ## Play legality and elimination threshold checks -/

/-- `isValidPlay`: with no lead suit or an empty trick any card is legal;
otherwise the current player must follow the lead suit when able. -/
def isValidPlay (gs : GameState) (card : Card) : Bool :=
  if gs.leadSuit.isNone || gs.currentTrick.isEmpty then true
  else
    let currentPlayer := gs.players.getD gs.currentPlayer defaultPlayer
    let lead := gs.leadSuit.getD ""
    let hasSuit := currentPlayer.hand.any (fun c => decide (c.suit = lead))
    if hasSuit && decide (card.suit ≠ lead) then false else true

/-- `isPlayingForDeath`: the player's points plus current entry stake reach
the (hard-coded) elimination threshold of 10. -/
def isPlayingForDeath (gs : GameState) (i : Nat) : Bool :=
  decide (10 ≤ (gs.players.getD i defaultPlayer).points + gs.playerStakesOnEntry.getD i 0)

/-! ## Laundry predicates -/

/-- `isVuileWas`: exactly 3 face cards (J/Q/K/A) plus exactly one 7. -/
def isVuileWas (hand : List Card) : Bool :=
  let faceCards := hand.filter (fun card => (["J", "Q", "K", "A"] : List String).contains card.rank)
  let sevens := hand.filter (fun card => decide (card.rank = "7"))
  decide (faceCards.length = 3) && decide (sevens.length = 1)

/-- `isWitteWas`: exactly 4 face cards (J/Q/K/A). -/
def isWitteWas (hand : List Card) : Bool :=
  let faceCards := hand.filter (fun card => (["J", "Q", "K", "A"] : List String).contains card.rank)
  decide (faceCards.length = 4)

/-! ## Round end and next-round setup -/

/-- `Math.max(...list)` over the trick-win counts (the list is always
nonempty in reachable states, so the 0 base is never the result for a
nonempty list of naturals). -/
def listMax (l : List Nat) : Nat := l.foldl Nat.max 0

/-- The `winners` list computed by `endRound`: every index whose trick-win
count equals `Math.max(...roundTrickWins)` — the maximum over ALL seats —
and that is still in the round. -/
def endRoundWinners (gs : GameState) : List Nat :=
  (List.range gs.roundTrickWins.length).filter
    (fun i => decide (gs.roundTrickWins.getD i 0 = listMax gs.roundTrickWins) &&
              decide (i ∈ gs.playersInRound))

/-- `endRound`, synchronous part: penalise every in-round player whose trick
count misses `Math.max(...roundTrickWins)` (taken over ALL seats) by their
own entry stake, record the round winner, reset the per-round fields,
recompute `playersInRound` from the elimination threshold, and move to
`roundEnd` (or `gameEnd` when at most one player survives).  The delayed
next-round setup it schedules is modelled by `startNextRound`. -/
def endRound (gs : GameState) : GameState :=
  let winners := endRoundWinners gs
  let players' := gs.playersInRound.foldl
    (fun ps i =>
      if i ∈ winners then ps
      else modifyAt ps i (fun p => { p with points := p.points + gs.playerStakesOnEntry.getD i 0 }))
    gs.players
  let n := gs.players.length
  let inRound' := (List.range n).filter
    (fun i => decide ((players'.getD i defaultPlayer).points < 10))
  let gs' := { gs with
    players := players',
    lastRoundWinner := winners.head?,
    round := gs.round + 1,
    stakes := 1,
    lastToeper := -1,
    roundTrickWins := List.replicate n 0,
    playerStakesOnEntry := List.replicate n 1,
    tricksPlayed := 0,
    currentTrick := [],
    leadSuit := none,
    gamePhase := GamePhase.roundEnd,
    playersInRound := inRound' }
  if inRound'.length ≤ 1 then { gs' with gamePhase := GamePhase.gameEnd } else gs'

/-- The deferred next-round setup scheduled by `endRound` (3s timer body):
enter laundry, hand the lead to the previous round's winner (falling back to
the first surviving player), clear card visibility, deal, and then branch to
the armoede sub-phase or apply a queued blind toep. -/
def startNextRound (gs0 : GameState) (shuffledDeck : List Card) : GameState :=
  let gs1 := { gs0 with gamePhase := GamePhase.laundry }
  let startPlayer :=
    match gs1.lastRoundWinner with
    | some w => if w ∈ gs1.playersInRound then w else gs1.playersInRound.getD 0 0
    | none => gs1.playersInRound.getD 0 0
  let gs2 := { gs1 with
    currentPlayer := startPlayer,
    players := gs1.players.map (fun p => { p with cardsVisible := false }) }
  let dealt := createDeckAndDeal gs2 shuffledDeck
  let gs3 := dealt.1
  if dealt.2 = "armoede" then
    { gs3 with
      gamePhase := GamePhase.armoede,
      armoedePlayers := getArmoedePlayers gs3,
      armoedePenalty := 2,
      armoedeResponses := some (List.replicate gs3.players.length none) }
  else if (match gs3.blindToepCaller with
           | some c => decide (0 ≤ c)
           | none => false) then
    { gs3 with
      stakes := 3,
      playerStakesOnEntry := List.replicate gs3.players.length 3,
      lastToeper := gs3.blindToepCaller.getD 0,
      pendingBlindToepResponse := true,
      blindToepCaller := some (-1) }
  else gs3

/-! ## Trick evaluation -/

/-- One comparison step of `evaluateTrick`'s winner scan: a lead-suit card
beats the running winner only by a strictly greater value, and beats any
running winner that is off suit. -/
def trickWinnerStep (leadSuit : Option String) (winner play : Play) : Play :=
  let followsLead := fun (q : Play) =>
    match leadSuit with
    | some s => decide (q.card.suit = s)
    | none => false
  if followsLead play && followsLead winner then
    if decide (winner.card.value < play.card.value) then play else winner
  else if followsLead play && !followsLead winner then play
  else winner

/-- `evaluateTrick`: scan the trick for the winning play, credit the trick,
clear the table, and hand the lead to the winner; calls `endRound` when the
fourth trick completes. -/
def evaluateTrick (gs : GameState) : GameState :=
  match gs.currentTrick with
  | [] => gs
  | first :: _ =>
    let winner := gs.currentTrick.foldl (trickWinnerStep gs.leadSuit) first
    let gs' := { gs with
      roundTrickWins := modifyAt gs.roundTrickWins winner.player (fun t => t + 1),
      currentTrick := [],
      tricksPlayed := gs.tricksPlayed + 1,
      currentPlayer := winner.player,
      leadSuit := none }
    if gs'.tricksPlayed = 4 then endRound gs' else gs'

/-! ## playCard -/

/-- `getNextPlayer`: cyclic successor within `playersInRound` (JS `indexOf`
yields `-1` when the current player is absent, so the scan restarts at
slot 0). -/
def getNextPlayer (gs : GameState) : Nat :=
  let nextIndex :=
    match gs.playersInRound.findIdx? (fun p => decide (p = gs.currentPlayer)) with
    | some idx => (idx + 1) % gs.playersInRound.length
    | none => 0
  gs.playersInRound.getD nextIndex 0

/-- The `playCard` case of `processGameAction`.  Returns the new state and
whether the card was actually played; on a full trick the evaluation is
deferred (see `trickCompleteTimerBody`), so the synchronous state keeps the
completed trick on the table. -/
def processPlayCard (gs : GameState) (playerIndex cardIndex : Nat) : GameState × Bool :=
  if gs.currentPlayer = playerIndex ∧ gs.gamePhase = GamePhase.playing ∧
     playerIndex ∈ gs.playersInRound ∧
     cardIndex < (gs.players.getD playerIndex defaultPlayer).hand.length then
    let card := (gs.players.getD playerIndex defaultPlayer).hand.getD cardIndex placeholderCard
    if isValidPlay gs card then
      let gsA := { gs with
        players := modifyAt gs.players playerIndex
          (fun p => { p with hand := p.hand.eraseIdx cardIndex }),
        currentTrick := gs.currentTrick ++ [{ card := card, player := playerIndex }] }
      let gsB :=
        if gsA.currentTrick.length = 1 then { gsA with leadSuit := some card.suit } else gsA
      if gsB.currentTrick.length = gsB.playersInRound.length then (gsB, true)
      else ({ gsB with currentPlayer := getNextPlayer gsB }, true)
    else (gs, false)
  else (gs, false)

/-! ## Toep (raise) machinery -/

/-- JS test `responses && responses[i] === null`: the response array exists
and slot `i` is an in-range pending (null) entry. -/
def pendingNull (r : Option (List (Option Response))) (i : Nat) : Bool :=
  match r with
  | some l => decide (l.get? i = some none)
  | none => false

/-- JS assignment `responses[i] = v` on a possibly-absent response array. -/
def setRespAt (r : Option (List (Option Response))) (i : Nat) (v : Response) :
    Option (List (Option Response)) :=
  match r with
  | some l => some (setAt l i (some v))
  | none => none

/-- The `toep` case of `processGameAction`.  Returns the new state and
whether the raise was applied; a rejected raise (wrong turn or phase,
re-raising as last toeper, or playing for death) leaves the state untouched.
The 30s auto-accept fallback it schedules is `toepTimeoutBody`. -/
def processToep (gs : GameState) (i : Nat) : GameState × Bool :=
  if gs.currentPlayer = i ∧ gs.gamePhase = GamePhase.playing ∧ gs.lastToeper ≠ (i : Int) then
    if isPlayingForDeath gs i then (gs, false)
    else
      let stakes' := gs.stakes + 1
      ({ gs with
        stakes := stakes',
        lastToeper := (i : Int),
        gamePhase := GamePhase.toepResponse,
        playerStakesOnEntry := setAt gs.playerStakesOnEntry i stakes',
        toepResponses :=
          some (setAt (List.replicate gs.players.length none) i (some Response.accept)) }, true)
  else (gs, false)

/-- First half of `checkToepResponses`: every pending in-round player who is
playing for death is auto-set to accept at the current stakes. -/
def autoAcceptDeaths (gs : GameState) : GameState :=
  gs.playersInRound.foldl
    (fun g i =>
      match g.toepResponses with
      | some resp =>
        if resp.get? i = some none ∧ isPlayingForDeath g i then
          { g with
            toepResponses := some (setAt resp i (some Response.accept)),
            playerStakesOnEntry := setAt g.playerStakesOnEntry i g.stakes }
        else g
      | none => g)
    gs

/-- `checkToepResponses`: once every in-round player has responded, penalise
each folder by the entry stake it currently holds, drop the folders from the
round, and either end the round (one player left) or resume play. -/
def checkToepResponses (gs0 : GameState) : GameState :=
  let gs := autoAcceptDeaths gs0
  match gs.toepResponses with
  | none => gs
  | some resp =>
    let responded := (gs.playersInRound.map (fun i => resp.getD i none)).filter Option.isSome
    if responded.length = gs.playersInRound.length then
      let players' := gs.playersInRound.foldl
        (fun ps i =>
          if resp.getD i none = some Response.fold then
            modifyAt ps i (fun p => { p with points := p.points + gs.playerStakesOnEntry.getD i 0 })
          else ps)
        gs.players
      let folded := gs.playersInRound.filter
        (fun i => decide (resp.getD i none = some Response.fold))
      let inRound' := gs.playersInRound.filter (fun i => decide (i ∉ folded))
      let gs' := { gs with players := players', playersInRound := inRound' }
      if inRound'.length = 1 then endRound gs'
      else { gs' with gamePhase := GamePhase.playing, toepResponses := none }
    else gs

/-- `checkBlindToepResponses`: when every slot of the blind response array is
filled, return to play (the single-survivor `endRound` is deferred on a
timer, so the synchronous state only flips the phase flags). -/
def checkBlindToepResponses (gs : GameState) : GameState :=
  match gs.blindToepResponses with
  | none => gs
  | some resp =>
    if resp.all Option.isSome then
      { gs with pendingBlindToepResponse := false, gamePhase := GamePhase.playing }
    else gs

/-- The `acceptToep` case of `processGameAction`, covering both the ordinary
`toepResponse` sub-phase (entry stake moves to the raised stakes) and the
`blindToepResponse` sub-phase (entry stakes were already set to 3). -/
def processAcceptToep (gs : GameState) (i : Nat) : GameState :=
  if gs.gamePhase = GamePhase.toepResponse ∧ pendingNull gs.toepResponses i then
    checkToepResponses { gs with
      toepResponses := setRespAt gs.toepResponses i Response.accept,
      playerStakesOnEntry := setAt gs.playerStakesOnEntry i gs.stakes }
  else if gs.gamePhase = GamePhase.blindToepResponse ∧ pendingNull gs.blindToepResponses i then
    checkBlindToepResponses { gs with
      blindToepResponses := setRespAt gs.blindToepResponses i Response.accept }
  else gs

/-- The `foldToToep` case of `processGameAction`: in `toepResponse` a
death-playing folder is converted to a forced accept, any other fold is just
recorded (the penalty is assessed by `checkToepResponses` on completion); in
`blindToepResponse` the folder is penalised immediately by its current entry
stake and removed from the round. -/
def processFoldToToep (gs : GameState) (i : Nat) : GameState :=
  if gs.gamePhase = GamePhase.toepResponse ∧ pendingNull gs.toepResponses i then
    if isPlayingForDeath gs i then
      checkToepResponses { gs with
        toepResponses := setRespAt gs.toepResponses i Response.accept,
        playerStakesOnEntry := setAt gs.playerStakesOnEntry i gs.stakes }
    else
      checkToepResponses { gs with toepResponses := setRespAt gs.toepResponses i Response.fold }
  else if gs.gamePhase = GamePhase.blindToepResponse ∧ pendingNull gs.blindToepResponses i then
    let penaltyPoints := gs.playerStakesOnEntry.getD i 0
    checkBlindToepResponses { gs with
      blindToepResponses := setRespAt gs.blindToepResponses i Response.fold,
      players := modifyAt gs.players i (fun p => { p with points := p.points + penaltyPoints }),
      playersInRound := gs.playersInRound.filter (fun p => decide (p ≠ i)) }
  else gs

/-- `processServerBlindToepResponse` (invoked from the new-round laundry
timer when a blind toep is pending): open the blind response sub-phase,
pre-seed the blind toeper's accept, and mark every seat no longer in the
round as folded. -/
def processServerBlindToepResponse (gs : GameState) : GameState :=
  let gs1 := { gs with
    gamePhase := GamePhase.blindToepResponse,
    blindToepResponses := some (List.replicate gs.players.length (none : Option Response)) }
  let gs2 :=
    if 0 ≤ gs1.lastToeper then
      { gs1 with blindToepResponses := setRespAt gs1.blindToepResponses gs1.lastToeper.toNat Response.accept }
    else gs1
  { gs2 with
    blindToepResponses :=
      match gs2.blindToepResponses with
      | some resp => some ((List.range gs2.players.length).foldl
          (fun r k => if k ∈ gs2.playersInRound then r else setAt r k (some Response.fold)) resp)
      | none => none }

/-- The 30s toep-response timeout helper `handleAIToepResponses`: auto-accept
every still-pending in-round player, then re-run the completion check. -/
def handleAIToepResponses (gs : GameState) : GameState :=
  match gs.toepResponses with
  | none => gs
  | some _ =>
    let gs' := gs.playersInRound.foldl
      (fun g i =>
        match g.toepResponses with
        | some resp =>
          if resp.get? i = some none then
            { g with toepResponses := some (setAt resp i (some Response.accept)) }
          else g
        | none => g)
      gs
    checkToepResponses gs'

/-! ## Armoede machinery -/

/-- `processArmoedeResponses`: once every in-round player has answered the
forced gamble, each folder takes a 1-point penalty and leaves the round;
a single survivor ends the round, otherwise play begins. -/
def processArmoedeResponses (gs : GameState) : GameState :=
  match gs.armoedeResponses with
  | none => gs
  | some resp =>
    let responded := (gs.playersInRound.map (fun i => resp.getD i none)).filter Option.isSome
    if responded.length = gs.playersInRound.length then
      let players' := gs.playersInRound.foldl
        (fun ps i =>
          if resp.getD i none = some Response.fold then
            modifyAt ps i (fun p => { p with points := p.points + 1 })
          else ps)
        gs.players
      let folded := gs.playersInRound.filter
        (fun i => decide (resp.getD i none = some Response.fold))
      let inRound' := gs.playersInRound.filter (fun i => decide (i ∉ folded))
      let gs' := { gs with players := players', playersInRound := inRound' }
      if inRound'.length = 1 then endRound gs'
      else { gs' with gamePhase := GamePhase.playing, armoedeResponses := none }
    else gs

/-- `handleArmoedeTimeout`: auto-accept every still-pending in-round player
at the armoede penalty stake, then resolve. -/
def handleArmoedeTimeout (gs : GameState) : GameState :=
  let gs' := gs.playersInRound.foldl
    (fun g i =>
      match g.armoedeResponses with
      | some resp =>
        if resp.get? i = some none then
          { g with
            armoedeResponses := some (setAt resp i (some Response.accept)),
            playerStakesOnEntry := setAt g.playerStakesOnEntry i g.armoedePenalty }
        else g
      | none => g)
    gs
  processArmoedeResponses gs'

/-! ## Laundry claim handling -/

/-- The `submitLaundry` case of `processGameAction`: during the laundry
window, with no claim already pending and at least 4 cards left in the deck,
snapshot the claimant's hand into `pendingLaundry` and open the inspection
window (whose timeout is `laundryClaimTimeoutBody`). -/
def processSubmitLaundry (gs : GameState) (i : Nat) (laundryType : String) : GameState :=
  if gs.gamePhase = GamePhase.laundry ∧ gs.awaitingInspection = false ∧ 4 ≤ gs.deck.length then
    { gs with
      pendingLaundry := some
        { playerIndex := i, type := laundryType,
          cards := (gs.players.getD i defaultPlayer).hand },
      awaitingInspection := true }
  else gs

/-- `processLaundryInspection`: adjudicate the pending claim against the
snapshot taken at claim time, always re-deal the claimant 4 cards from the
deck, penalise the inspector (valid claim) or the claimant (bluff caught,
whose cards also become visible), and reopen or close the laundry window
depending on the remaining deck. -/
def processLaundryInspection (gs : GameState) (inspectorIndex : Nat) : GameState :=
  match gs.pendingLaundry with
  | none => gs
  | some pl =>
    let isValidLaundry := if pl.type = "witte" then isWitteWas pl.cards else isVuileWas pl.cards
    let dealt := dealCards gs.deck 4
    let gs1 := { gs with
      players := modifyAt gs.players pl.playerIndex (fun p => { p with hand := dealt.1 }),
      deck := dealt.2 }
    let addPoint := fun (p : Player) => { p with points := p.points + 1 }
    let catchBluff := fun (p : Player) => { p with points := p.points + 1, cardsVisible := true }
    let gs2 :=
      if isValidLaundry then
        { gs1 with players := modifyAt gs1.players inspectorIndex addPoint }
      else
        { gs1 with players := modifyAt gs1.players pl.playerIndex catchBluff }
    let gs3 := { gs2 with pendingLaundry := none, awaitingInspection := false }
    if 4 ≤ dealt.2.length then { gs3 with gamePhase := GamePhase.laundry }
    else { gs3 with gamePhase := GamePhase.playing }

/-- The `inspectLaundry` case of `processGameAction`: only a seat other than
the claimant may inspect an open claim. -/
def processInspectLaundry (gs : GameState) (i : Nat) : GameState :=
  match gs.pendingLaundry with
  | none => gs
  | some pl =>
    if gs.awaitingInspection = true ∧ pl.playerIndex ≠ i then
      processLaundryInspection gs i
    else gs

/-! ## Mid-round fold and blind-toep queueing -/

/-- The `fold` case of `processGameAction`: an in-round player leaves the
round and immediately takes a penalty equal to its entry stake; a single
survivor triggers `endRound`, and the turn advances past a folding current
player. -/
def processFold (gs : GameState) (i : Nat) : GameState :=
  if i ∈ gs.playersInRound then
    let gs1 := { gs with
      playersInRound := gs.playersInRound.filter (fun p => decide (p ≠ i)),
      players := modifyAt gs.players i
        (fun p => { p with points := p.points + gs.playerStakesOnEntry.getD i 0 }) }
    if gs1.playersInRound.length = 1 then endRound gs1
    else if gs1.currentPlayer = i then { gs1 with currentPlayer := getNextPlayer gs1 }
    else gs1
  else gs

/-- The `blindToep` case of `processGameAction`: during `roundEnd`, the first
caller is queued for the next round. -/
def processBlindToep (gs : GameState) (i : Nat) : GameState :=
  if gs.gamePhase = GamePhase.roundEnd ∧ gs.blindToepCaller = none then
    { gs with blindToepCaller := some (i : Int) }
  else gs

/-! ## Game start -/

/-- The fresh `gameState` object built by the `startGame` handler for `n`
seated players (before dealing).  The not-yet-assigned `armoedePenalty`,
`armoedePlayers`, `blindToepCaller` and response arrays are modelled by
their neutral values. -/
def initialGameState (n : Nat) : GameState :=
  { players := List.replicate n defaultPlayer,
    currentPlayer := 0,
    round := 1,
    stakes := 1,
    gamePhase := GamePhase.laundry,
    deck := [],
    currentTrick := [],
    tricksPlayed := 0,
    playersInRound := List.range n,
    roundTrickWins := List.replicate n 0,
    playerStakesOnEntry := List.replicate n 1,
    lastToeper := -1,
    awaitingInspection := false,
    pendingLaundry := none,
    leadSuit := none,
    toepResponses := none,
    blindToepResponses := none,
    armoedeResponses := none,
    armoedePenalty := 0,
    armoedePlayers := [],
    blindToepCaller := none,
    pendingBlindToepResponse := false,
    lastRoundWinner := none }

/-- The `startGame` handler's dealing step: build the initial state, deal,
and enter the armoede sub-phase (penalty 2) when the deal reports it. -/
def startGame (n : Nat) (shuffledDeck : List Card) : GameState :=
  let dealt := createDeckAndDeal (initialGameState n) shuffledDeck
  let gs := dealt.1
  if dealt.2 = "armoede" then
    { gs with
      gamePhase := GamePhase.armoede,
      armoedePlayers := getArmoedePlayers gs,
      armoedePenalty := 2,
      armoedeResponses := some (List.replicate gs.players.length none) }
  else gs

/-! ## State filtering and broadcast -/

/-- The visibility test of `getFilteredGameStateForPlayer` for a seat other
than the receiver: cards stay readable when that seat's `cardsVisible` flag
is set, during the whole laundry phase, while any inspection is pending, or
when that seat is the claimant of the pending claim. -/
def cardsStayVisible (gs : GameState) (idx : Nat) (p : Player) : Bool :=
  p.cardsVisible || decide (gs.gamePhase = GamePhase.laundry) || gs.awaitingInspection ||
  (match gs.pendingLaundry with
   | some pl => decide (pl.playerIndex = idx)
   | none => false)

/-- `getFilteredGameStateForPlayer`: the deep-cloned per-seat view in which
every concealed hand entry is replaced by the fixed placeholder card. -/
def getFilteredGameStateForPlayer (gs : GameState) (targetPlayerIndex : Nat) : GameState :=
  { gs with
    players := (List.range gs.players.length).map (fun idx =>
      let p := gs.players.getD idx defaultPlayer
      if idx ≠ targetPlayerIndex then
        if cardsStayVisible gs idx p then p
        else { p with hand := p.hand.map (fun _ => placeholderCard) }
      else p) }

/-- `broadcastSecureGameState`: the per-seat filtered views fanned out to the
room (delivery itself is fire-and-forget and not modelled). -/
def broadcastSecureGameState (gs : GameState) : List GameState :=
  (List.range gs.players.length).map (fun i => getFilteredGameStateForPlayer gs i)

/-! ## Deferred (timer) callback bodies -/

/-- Body of the 3s trick-display timer scheduled by `playCard` when the trick
fills: it runs `evaluateTrick` with no re-check of the game phase. -/
def trickCompleteTimerBody (gs : GameState) : GameState :=
  evaluateTrick gs

/-- Body of the 30s toep-response timeout: re-checks that the phase is still
`toepResponse` and the response array still exists before acting. -/
def toepTimeoutBody (gs : GameState) : GameState :=
  if gs.gamePhase = GamePhase.toepResponse ∧ gs.toepResponses ≠ none then
    handleAIToepResponses gs
  else gs

/-- Body of the 30s armoede-response timeout: re-checks the phase and the
response array before acting. -/
def armoedeTimeoutBody (gs : GameState) : GameState :=
  if gs.gamePhase = GamePhase.armoede ∧ gs.armoedeResponses ≠ none then
    handleArmoedeTimeout gs
  else gs

/-- Body of the plain 10s laundry-window timers (game start, post-claim
restart): the window only closes if the phase is still `laundry` and no
inspection is pending. -/
def laundryPhaseEndTimerBody (gs : GameState) : GameState :=
  if gs.gamePhase = GamePhase.laundry ∧ gs.awaitingInspection = false then
    { gs with gamePhase := GamePhase.playing }
  else gs

/-- Body of the 10s laundry timer armed by the new-round setup: same phase
guard, but a pending blind toep diverts into its response sub-phase. -/
def newRoundLaundryTimerBody (gs : GameState) : GameState :=
  if gs.gamePhase = GamePhase.laundry ∧ gs.awaitingInspection = false then
    if gs.pendingBlindToepResponse then processServerBlindToepResponse gs
    else { gs with gamePhase := GamePhase.playing }
  else gs

/-- Body of the 10s inspection-window timeout scheduled by `submitLaundry`
for claimant `claimantIndex`: it re-checks that an inspection is still
awaited and that the pending claim still names the same claimant, then
re-deals the claimant without any penalty. -/
def laundryClaimTimeoutBody (gs : GameState) (claimantIndex : Nat) : GameState :=
  match gs.pendingLaundry with
  | none => gs
  | some pl =>
    if gs.awaitingInspection = true ∧ pl.playerIndex = claimantIndex then
      let dealt := dealCards gs.deck 4
      let gs1 := { gs with
        players := modifyAt gs.players claimantIndex (fun p => { p with hand := dealt.1 }),
        deck := dealt.2,
        pendingLaundry := none,
        awaitingInspection := false }
      if 4 ≤ dealt.2.length then { gs1 with gamePhase := GamePhase.laundry }
      else { gs1 with gamePhase := GamePhase.playing }
    else gs

/-- Body of the 3s round-transition timer scheduled by `endRound`: it runs
the next-round setup with no re-check of the game phase. -/
def roundTransitionTimerBody (gs : GameState) (shuffledDeck : List Card) : GameState :=
  startNextRound gs shuffledDeck

/-! ## Concrete states used in counterexamples and witnesses -/

/-- ♠J, the weakest spade (strength 1). -/
def spadeJack : Card := { suit := "♠", rank := "J", value := 1 }

/-- ♠10, the strongest spade (strength 8). -/
def spadeTen : Card := { suit := "♠", rank := "10", value := 8 }

/-- ♠8. -/
def spadeEight : Card := { suit := "♠", rank := "8", value := 6 }

/-- ♥A. -/
def heartAce : Card := { suit := "♥", rank := "A", value := 4 }

/-- ♥K. -/
def heartKing : Card := { suit := "♥", rank := "K", value := 3 }

/-- ♦9 (an arbitrary deck filler card). -/
def diamondNine : Card := { suit := "♦", rank := "9", value := 7 }

/-- A player with the given score and hand and concealed cards. -/
def mkPlayer (pts : Nat) (h : List Card) : Player :=
  { points := pts, hand := h, cardsVisible := false }

/-- A room of three players just after the first deal has moved to ordinary
play: everyone still at 0 points, stakes 1. -/
def basePlayingState : GameState :=
  { initialGameState 3 with
    gamePhase := GamePhase.playing,
    players := [mkPlayer 0 [spadeJack], mkPlayer 0 [spadeTen, heartAce], mkPlayer 0 [heartKing]] }

/-- A laundry-phase state (no pending claim) with concealed real hands. -/
def laundryPhaseState : GameState :=
  { initialGameState 3 with
    gamePhase := GamePhase.laundry,
    players := [mkPlayer 0 [spadeJack], mkPlayer 0 [spadeTen, heartAce], mkPlayer 0 [heartKing]] }

/-- A playing-phase state at the stake ceiling of 8 with seat 0 to move. -/
def maxStakesState : GameState :=
  { basePlayingState with stakes := 8 }

/-- A round-end state in which seat 2 is the only seat left in the round but
seat 0 — who folded mid-round after winning a trick — holds the global
maximum trick count. -/
def foldedMaxState : GameState :=
  { basePlayingState with playersInRound := [2], roundTrickWins := [1, 0, 0] }

/-- A completed three-card trick led with ♠J, beaten by ♠10, with an
off-suit ♥A discard (Scenario A of the specification). -/
def scenarioAState : GameState :=
  { basePlayingState with
    leadSuit := some "♠",
    currentTrick := [{ card := spadeJack, player := 0 },
                     { card := spadeTen, player := 1 },
                     { card := heartAce, player := 2 }] }

/-- `scenarioAState` after the current player toeped while the full trick
was still waiting on its 3-second display timer. -/
def staleTrickTimerState : GameState :=
  { scenarioAState with gamePhase := GamePhase.toepResponse }

/-- Seat 1 mid-turn holding ♥A and ♠10 while ♠ was led: playing the ♥A would
break suit-following. -/
def followSuitState : GameState :=
  { initialGameState 3 with
    gamePhase := GamePhase.playing,
    currentPlayer := 1,
    leadSuit := some "♠",
    currentTrick := [{ card := spadeJack, player := 0 }],
    players := [mkPlayer 0 [], mkPlayer 0 [heartAce, spadeTen], mkPlayer 0 []] }

/-- A deck of 32 distinct filler cards for re-deals. -/
def fillerDeck : List Card :=
  (List.range 32).map (fun k => { suit := "♦", rank := "9", value := k })

/-- A room between rounds in which seat 0 ended the previous round at
exactly 9 points. -/
def armoedeEdgeState : GameState :=
  { initialGameState 3 with
    gamePhase := GamePhase.roundEnd,
    players := [mkPlayer 9 [], mkPlayer 0 [], mkPlayer 0 []] }

/-- A room between rounds with a blind toep queued by seat 2 and no seat
near elimination. -/
def blindQueuedState : GameState :=
  { initialGameState 3 with
    gamePhase := GamePhase.roundEnd,
    players := [mkPlayer 1 [], mkPlayer 1 [], mkPlayer 1 []],
    lastRoundWinner := some 0,
    blindToepCaller := some 2 }

/-- The toep-response state reached from `basePlayingState` when seat 0
raises to 2 (Scenario B's opening move): seats 1 and 2 are both pending. -/
def toepPendingState : GameState := (processToep basePlayingState 0).1

/-- A completed toep-response set over stakes 2: seat 0 raised and accepted,
seat 1 folded while still holding its pre-raise entry stake of 1, seat 2
accepted at the raised stake. -/
def toepRespondedState : GameState :=
  { basePlayingState with
    gamePhase := GamePhase.toepResponse,
    stakes := 2,
    lastToeper := 0,
    playerStakesOnEntry := [2, 1, 2],
    toepResponses := some [some Response.accept, some Response.fold, some Response.accept] }

/-- A laundry-phase state where seat 0 holds J, Q and two low cards — a hand
that satisfies neither laundry predicate (Scenario D's bluff). -/
def bluffHandState : GameState :=
  { initialGameState 3 with
    gamePhase := GamePhase.laundry,
    deck := fillerDeck,
    players := [mkPlayer 0 [spadeEight, diamondNine, spadeJack,
                            { suit := "♠", rank := "Q", value := 2 }],
                mkPlayer 0 [], mkPlayer 0 []] }

/-! ## General lemmas about the list helpers -/

theorem modifyAt_length {α : Type} (l : List α) (i : Nat) (f : α → α) :
    (modifyAt l i f).length = l.length := by
  induction l generalizing i with
  | nil => simp [modifyAt]
  | cons a t ih =>
    cases i with
    | zero => simp [modifyAt]
    | succ n => simp [modifyAt, ih]

theorem modifyAt_getD_self {α : Type} (l : List α) (i : Nat) (f : α → α) (d : α)
    (h : i < l.length) : (modifyAt l i f).getD i d = f (l.getD i d) := by
  induction l generalizing i with
  | nil => simp at h
  | cons a t ih =>
    cases i with
    | zero => simp [modifyAt]
    | succ n =>
      simp only [modifyAt, List.getD_cons_succ]
      exact ih n (by simpa using h)

theorem modifyAt_getD_ne {α : Type} (l : List α) (i j : Nat) (f : α → α) (d : α)
    (h : i ≠ j) : (modifyAt l i f).getD j d = l.getD j d := by
  induction l generalizing i j with
  | nil => simp [modifyAt]
  | cons a t ih =>
    cases i with
    | zero =>
      cases j with
      | zero => exact absurd rfl h
      | succ m => simp [modifyAt]
    | succ n =>
      cases j with
      | zero => simp [modifyAt]
      | succ m =>
        simp only [modifyAt, List.getD_cons_succ]
        exact ih n m (by omega)

theorem getD_range_map {α : Type} (f : Nat → α) (n k : Nat) (d : α) (h : k < n) :
    ((List.range n).map f).getD k d = f k := by
  have hk : k < ((List.range n).map f).length := by simpa using h
  rw [List.getD_eq_getElem _ d hk]
  simp

/-! ## Claim C1: per-seat filtering of concealed hands -/

/-- Claim C1 as stated is false on the code: during the whole laundry phase
(`gamePhase === 'laundry'`) the filter leaves every seat's real hand visible
to every other seat, even for a seat with `cardsVisible = false` that is not
the claimant of any pending claim.  Here seat 1's real two-card hand reaches
seat 0's view unmasked. -/
theorem claim1_counterexample :
    laundryPhaseState.gamePhase = GamePhase.laundry ∧
    (laundryPhaseState.players.getD 1 defaultPlayer).cardsVisible = false ∧
    laundryPhaseState.pendingLaundry = none ∧
    laundryPhaseState.awaitingInspection = false ∧
    ((getFilteredGameStateForPlayer laundryPhaseState 0).players.getD 1 defaultPlayer).hand =
      [spadeTen, heartAce] ∧
    ((getFilteredGameStateForPlayer laundryPhaseState 0).players.getD 1 defaultPlayer).hand ≠
      (laundryPhaseState.players.getD 1 defaultPlayer).hand.map (fun _ => placeholderCard) := by
  refine ⟨rfl, rfl, rfl, rfl, rfl, ?_⟩
  decide

/-- Claim C1, amended: the concealment guarantee holds for every state whose
phase is not `laundry` and in which no inspection is awaited — for any seat T
other than the receiver with `cardsVisible = false` that is not the claimant
of the pending claim, T's hand in the receiver's view is exactly one fixed
placeholder card per true hand card, so the placeholder count equals T's
true hand size. -/
theorem claim1_amended_filter (gs : GameState) (S T : Nat)
    (hT : T < gs.players.length) (hne : T ≠ S)
    (hvis : (gs.players.getD T defaultPlayer).cardsVisible = false)
    (hphase : gs.gamePhase ≠ GamePhase.laundry)
    (hawait : gs.awaitingInspection = false)
    (hclaim : ∀ pl, gs.pendingLaundry = some pl → pl.playerIndex ≠ T) :
    ((getFilteredGameStateForPlayer gs S).players.getD T defaultPlayer).hand =
      (gs.players.getD T defaultPlayer).hand.map (fun _ => placeholderCard) ∧
    ((getFilteredGameStateForPlayer gs S).players.getD T defaultPlayer).hand.length =
      (gs.players.getD T defaultPlayer).hand.length := by
  have hvisible : cardsStayVisible gs T (gs.players.getD T defaultPlayer) = false := by
    unfold cardsStayVisible
    rw [hvis, hawait]
    cases hpl : gs.pendingLaundry with
    | none => simp [hphase]
    | some pl =>
      have := hclaim pl hpl
      simp [hphase, this]
  constructor
  · unfold getFilteredGameStateForPlayer
    simp only
    rw [getD_range_map _ _ _ _ hT]
    rw [if_pos hne, if_neg (by rw [hvisible]; exact Bool.false_ne_true)]
  · unfold getFilteredGameStateForPlayer
    simp only
    rw [getD_range_map _ _ _ _ hT]
    rw [if_pos hne, if_neg (by rw [hvisible]; exact Bool.false_ne_true)]
    simp

/-- Witness for `claim1_amended_filter` at a concrete playing-phase state:
seat 1's two-card hand appears to seat 0 as two placeholder cards. -/
theorem claim1_amended_filter_witness :
    ((getFilteredGameStateForPlayer basePlayingState 0).players.getD 1 defaultPlayer).hand =
      [placeholderCard, placeholderCard] ∧
    ((getFilteredGameStateForPlayer basePlayingState 0).players.getD 1 defaultPlayer).hand.length =
      (basePlayingState.players.getD 1 defaultPlayer).hand.length := by
  have h := claim1_amended_filter basePlayingState 0 1 (by decide) (by decide) (by decide)
    (by decide) (by decide) (by intro pl hpl; simp [basePlayingState, initialGameState] at hpl)
  exact ⟨by rw [h.1]; decide, h.2⟩

/-! ## Claim C4: raise validation -/

/-- Claim C4 as stated is false on the code: the server's `toep` case never
compares `stakes` against the maximum stake of 8, so a raise made exactly at
the ceiling is accepted and pushes the stakes to 9. -/
theorem claim4_counterexample :
    maxStakesState.stakes = 8 ∧
    maxStakesState.gamePhase = GamePhase.playing ∧
    maxStakesState.currentPlayer = 0 ∧
    maxStakesState.lastToeper ≠ (0 : Int) ∧
    (processToep maxStakesState 0).2 = true ∧
    (processToep maxStakesState 0).1.stakes = 9 := by
  decide

/-- Claim C4, amended: a raise is rejected, with the state left untouched,
exactly when the acting seat is not the current player, or the phase is not
`playing`, or the seat was the last raiser, or the seat is playing for
death; no stake ceiling is enforced.  An accepted raise increments the
stakes by exactly 1, records the raiser and opens the response sub-phase. -/
theorem claim4_amended_toep (gs : GameState) (i : Nat) :
    ((processToep gs i).2 = true ↔
      (gs.currentPlayer = i ∧ gs.gamePhase = GamePhase.playing ∧ gs.lastToeper ≠ (i : Int) ∧
       isPlayingForDeath gs i = false)) ∧
    ((processToep gs i).2 = true →
      (processToep gs i).1.stakes = gs.stakes + 1 ∧
      (processToep gs i).1.lastToeper = (i : Int) ∧
      (processToep gs i).1.gamePhase = GamePhase.toepResponse) ∧
    ((processToep gs i).2 = false → (processToep gs i).1 = gs) := by
  unfold processToep
  by_cases h : gs.currentPlayer = i ∧ gs.gamePhase = GamePhase.playing ∧ gs.lastToeper ≠ (i : Int)
  · rw [if_pos h]
    by_cases hd : isPlayingForDeath gs i
    · simp [hd, h]
    · simp only [hd, Bool.false_eq_true, if_false, if_neg]
      simp [h, hd]
  · rw [if_neg h]
    refine ⟨⟨fun hfalse => absurd hfalse (by simp),
             fun hcond => absurd ⟨hcond.1, hcond.2.1, hcond.2.2.1⟩ h⟩,
            fun hfalse => absurd hfalse (by simp),
            fun _ => rfl⟩

/-- Witness for `claim4_amended_toep`: at `basePlayingState` seat 0's raise
is accepted and moves the stakes from 1 to 2. -/
theorem claim4_amended_toep_witness :
    (processToep basePlayingState 0).2 = true ∧
    (processToep basePlayingState 0).1.stakes = 2 := by
  have h := claim4_amended_toep basePlayingState 0
  have hacc : (processToep basePlayingState 0).2 = true :=
    h.1.mpr ⟨by decide, by decide, by decide, by decide⟩
  exact ⟨hacc, (h.2.1 hacc).1⟩

/-! ## Claim C5: playCard legality and rejection purity -/

theorem processPlayCard_snd_of_valid (gs : GameState) (i ci : Nat)
    (hg : gs.currentPlayer = i ∧ gs.gamePhase = GamePhase.playing ∧ i ∈ gs.playersInRound ∧
      ci < (gs.players.getD i defaultPlayer).hand.length)
    (hv : isValidPlay gs ((gs.players.getD i defaultPlayer).hand.getD ci placeholderCard) = true) :
    (processPlayCard gs i ci).2 = true := by
  unfold processPlayCard
  rw [if_pos hg, if_pos hv]
  dsimp only
  rw [apply_ite Prod.snd]
  dsimp only
  rw [ite_self]

theorem processPlayCard_reject_id (gs : GameState) (i ci : Nat)
    (h : (processPlayCard gs i ci).2 = false) : (processPlayCard gs i ci).1 = gs := by
  unfold processPlayCard at h ⊢
  by_cases hg : gs.currentPlayer = i ∧ gs.gamePhase = GamePhase.playing ∧
      i ∈ gs.playersInRound ∧ ci < (gs.players.getD i defaultPlayer).hand.length
  · rw [if_pos hg] at h ⊢
    by_cases hv : isValidPlay gs
        ((gs.players.getD i defaultPlayer).hand.getD ci placeholderCard) = true
    · rw [if_pos hv] at h
      dsimp only at h
      rw [apply_ite Prod.snd] at h
      dsimp only at h
      rw [ite_self] at h
      exact absurd h (by simp)
    · rw [if_neg hv]
  · rw [if_neg hg]

theorem isValidPlay_follow_suit (gs : GameState) (card : Card) (s : String)
    (hlead : gs.leadSuit = some s) (htrick : gs.currentTrick ≠ [])
    (hv : isValidPlay gs card = true) (hsuit : card.suit ≠ s) :
    ∀ c ∈ (gs.players.getD gs.currentPlayer defaultPlayer).hand, c.suit ≠ s := by
  unfold isValidPlay at hv
  rw [hlead] at hv
  have hie : gs.currentTrick.isEmpty = false := by
    cases htr : gs.currentTrick with
    | nil => exact absurd htr htrick
    | cons a t => rfl
  rw [hie] at hv
  simp only [Option.isNone_some, Bool.false_or, Bool.or_false, if_false, Option.getD_some,
    Bool.or_self] at hv
  intro c hc hcs
  have hany : ((gs.players.getD gs.currentPlayer defaultPlayer).hand.any
      (fun c => decide (c.suit = s))) = true :=
    List.any_eq_true.mpr ⟨c, hc, decide_eq_true hcs⟩
  have hcc : (((gs.players.getD gs.currentPlayer defaultPlayer).hand.any
      (fun c => decide (c.suit = s))) && decide (card.suit ≠ s)) = true := by
    rw [hany, decide_eq_true hsuit]
    rfl
  rw [if_pos hcc] at hv
  exact absurd hv (by simp)

/-- Claim C5, confirmed: when a lead suit is fixed and the trick is
nonempty, an accepted card that is off the lead suit implies the acting
seat's whole hand is lead-suit free; a card is always accepted on an empty
trick (given the turn/phase/range guards); and a rejected `playCard` attempt
returns the round record unchanged. -/
theorem claim5_playcard (gs : GameState) (i ci : Nat) :
    (∀ s, gs.leadSuit = some s → gs.currentTrick ≠ [] →
      (processPlayCard gs i ci).2 = true →
      ((gs.players.getD i defaultPlayer).hand.getD ci placeholderCard).suit ≠ s →
      ∀ c ∈ (gs.players.getD i defaultPlayer).hand, c.suit ≠ s) ∧
    (gs.currentTrick = [] →
      gs.currentPlayer = i → gs.gamePhase = GamePhase.playing → i ∈ gs.playersInRound →
      ci < (gs.players.getD i defaultPlayer).hand.length →
      (processPlayCard gs i ci).2 = true) ∧
    ((processPlayCard gs i ci).2 = false → (processPlayCard gs i ci).1 = gs) := by
  refine ⟨?_, ?_, processPlayCard_reject_id gs i ci⟩
  · intro s hlead htrick hacc hsuit
    have hg : gs.currentPlayer = i ∧ gs.gamePhase = GamePhase.playing ∧
        i ∈ gs.playersInRound ∧ ci < (gs.players.getD i defaultPlayer).hand.length := by
      by_contra hng
      unfold processPlayCard at hacc
      rw [if_neg hng] at hacc
      exact absurd hacc (by simp)
    have hv : isValidPlay gs
        ((gs.players.getD i defaultPlayer).hand.getD ci placeholderCard) = true := by
      by_contra hnv
      unfold processPlayCard at hacc
      rw [if_pos hg, if_neg hnv] at hacc
      exact absurd hacc (by simp)
    have := isValidPlay_follow_suit gs _ s hlead htrick hv hsuit
    rw [hg.1] at this
    exact this
  · intro htrick h1 h2 h3 h4
    apply processPlayCard_snd_of_valid gs i ci ⟨h1, h2, h3, h4⟩
    unfold isValidPlay
    have hie : gs.currentTrick.isEmpty = true := by rw [htrick]; rfl
    rw [hie]
    simp

/-- Witness for `claim5_playcard`: at `followSuitState` seat 1 holds a spade
while ♠ was led, so the attempted off-suit ♥A is rejected and the state is
unchanged; at `basePlayingState` the empty-trick clause accepts seat 0's
lead. -/
theorem claim5_playcard_witness :
    (processPlayCard followSuitState 1 0).2 = false ∧
    (processPlayCard followSuitState 1 0).1 = followSuitState ∧
    (processPlayCard basePlayingState 0 0).2 = true := by
  have h5 := claim5_playcard followSuitState 1 0
  have hrej : (processPlayCard followSuitState 1 0).2 = false := by decide
  have h5b := claim5_playcard basePlayingState 0 0
  exact ⟨hrej, h5.2.2 hrej,
    h5b.2.1 (by decide) (by decide) (by decide) (by decide) (by decide)⟩

/-! ## Claim C6: trick winner determination -/

theorem foldl_trickWinner_spec (s : String) (l : List Play) :
    ∀ acc : Play, acc.card.suit = s →
      (l.foldl (trickWinnerStep (some s)) acc).card.suit = s ∧
      acc.card.value ≤ (l.foldl (trickWinnerStep (some s)) acc).card.value ∧
      (l.foldl (trickWinnerStep (some s)) acc = acc ∨
        l.foldl (trickWinnerStep (some s)) acc ∈ l) ∧
      ∀ q ∈ l, q.card.suit = s →
        q.card.value ≤ (l.foldl (trickWinnerStep (some s)) acc).card.value := by
  induction l with
  | nil =>
    intro acc hacc
    exact ⟨hacc, le_refl _, Or.inl rfl, by simp⟩
  | cons a t ih =>
    intro acc hacc
    by_cases ha : a.card.suit = s
    · by_cases hlt : acc.card.value < a.card.value
      · have hstep : trickWinnerStep (some s) acc a = a := by
          simp [trickWinnerStep, ha, hacc, hlt]
        rw [List.foldl_cons, hstep]
        obtain ⟨h1, h2, h3, h4⟩ := ih a ha
        refine ⟨h1, le_trans (le_of_lt hlt) h2, ?_, ?_⟩
        · rcases h3 with h3 | h3
          · exact Or.inr (by rw [h3]; exact List.mem_cons_self a t)
          · exact Or.inr (List.mem_cons_of_mem a h3)
        · intro q hq hqs
          rcases List.mem_cons.mp hq with hq | hq
          · rw [hq]; exact h2
          · exact h4 q hq hqs
      · have hstep : trickWinnerStep (some s) acc a = acc := by
          simp [trickWinnerStep, ha, hacc, hlt]
        rw [List.foldl_cons, hstep]
        obtain ⟨h1, h2, h3, h4⟩ := ih acc hacc
        refine ⟨h1, h2, ?_, ?_⟩
        · rcases h3 with h3 | h3
          · exact Or.inl h3
          · exact Or.inr (List.mem_cons_of_mem a h3)
        · intro q hq hqs
          rcases List.mem_cons.mp hq with hq | hq
          · rw [hq]; exact le_trans (le_of_not_lt hlt) h2
          · exact h4 q hq hqs
    · have hstep : trickWinnerStep (some s) acc a = acc := by
        simp [trickWinnerStep, ha]
      rw [List.foldl_cons, hstep]
      obtain ⟨h1, h2, h3, h4⟩ := ih acc hacc
      refine ⟨h1, h2, ?_, ?_⟩
      · rcases h3 with h3 | h3
        · exact Or.inl h3
        · exact Or.inr (List.mem_cons_of_mem a h3)
      · intro q hq hqs
        rcases List.mem_cons.mp hq with hq | hq
        · exact absurd (by rw [← hq]; exact hqs) ha
        · exact h4 q hq hqs

/-- Claim C6, confirmed (for the non-final tricks of a round; the fourth
trick additionally hands off to `endRound`, which consumes and resets the
incremented counter): when the trick is led by a lead-suit card, the scanned
winner is a lead-suit play of maximal strength among the trick's lead-suit
plays — strictly maximal when those strengths are pairwise distinct — and
`evaluateTrick` credits the winner's trick counter, clears the trick, and
makes the winner the current player. -/
theorem claim6_evaluate_trick (gs : GameState) (s : String) (p : Play) (rest : List Play)
    (w : Play)
    (htrick : gs.currentTrick = p :: rest)
    (hlead : gs.leadSuit = some s)
    (hp : p.card.suit = s)
    (hw : w = gs.currentTrick.foldl (trickWinnerStep gs.leadSuit) p)
    (hnotlast : gs.tricksPlayed + 1 ≠ 4)
    (hwins : w.player < gs.roundTrickWins.length)
    (hdist : ((gs.currentTrick.filter (fun q => decide (q.card.suit = s))).map
        (fun q => q.card.value)).Nodup) :
    w ∈ gs.currentTrick ∧ w.card.suit = s ∧
    (∀ q ∈ gs.currentTrick, q.card.suit = s → q.card.value ≤ w.card.value) ∧
    (∀ q ∈ gs.currentTrick, q.card.suit = s → q ≠ w → q.card.value < w.card.value) ∧
    (evaluateTrick gs).roundTrickWins.getD w.player 0 =
      gs.roundTrickWins.getD w.player 0 + 1 ∧
    (evaluateTrick gs).currentTrick = [] ∧
    (evaluateTrick gs).currentPlayer = w.player ∧
    (evaluateTrick gs).tricksPlayed = gs.tricksPlayed + 1 ∧
    (evaluateTrick gs).leadSuit = none := by
  have hpp : trickWinnerStep (some s) p p = p := by
    simp [trickWinnerStep, hp]
  have hwrest : w = rest.foldl (trickWinnerStep (some s)) p := by
    rw [hw, htrick, hlead, List.foldl_cons, hpp]
  obtain ⟨h1, h2, h3, h4⟩ := foldl_trickWinner_spec s rest p hp
  rw [← hwrest] at h1 h2 h3 h4
  have hmem : w ∈ gs.currentTrick := by
    rw [htrick]
    rcases h3 with h3 | h3
    · rw [h3]; exact List.mem_cons_self p rest
    · exact List.mem_cons_of_mem p h3
  have hmax : ∀ q ∈ gs.currentTrick, q.card.suit = s → q.card.value ≤ w.card.value := by
    intro q hq hqs
    rw [htrick] at hq
    rcases List.mem_cons.mp hq with hq | hq
    · rw [hq]; exact h2
    · exact h4 q hq hqs
  have hstrict : ∀ q ∈ gs.currentTrick, q.card.suit = s → q ≠ w →
      q.card.value < w.card.value := by
    intro q hq hqs hqw
    have hqf : q ∈ gs.currentTrick.filter (fun r => decide (r.card.suit = s)) :=
      List.mem_filter.mpr ⟨hq, decide_eq_true hqs⟩
    have hwf : w ∈ gs.currentTrick.filter (fun r => decide (r.card.suit = s)) :=
      List.mem_filter.mpr ⟨hmem, decide_eq_true h1⟩
    have hne : q.card.value ≠ w.card.value := by
      intro hvv
      exact hqw (List.inj_on_of_nodup_map hdist hqf hwf hvv)
    exact lt_of_le_of_ne (hmax q hq hqs) hne
  have heval : evaluateTrick gs = { gs with
      roundTrickWins := modifyAt gs.roundTrickWins w.player (fun t => t + 1),
      currentTrick := [],
      tricksPlayed := gs.tricksPlayed + 1,
      currentPlayer := w.player,
      leadSuit := none } := by
    unfold evaluateTrick
    rw [hw]
    simp only [htrick, hlead]
    rw [if_neg hnotlast]
  refine ⟨hmem, h1, hmax, hstrict, ?_, ?_, ?_, ?_, ?_⟩
  · rw [heval]
    exact modifyAt_getD_self _ _ _ _ hwins
  · rw [heval]
  · rw [heval]
  · rw [heval]
  · rw [heval]

/-- Witness for `claim6_evaluate_trick` at Scenario A: ♠J led, ♠10 wins over
the off-suit ♥A, seat 1 is credited the trick and takes the lead. -/
theorem claim6_evaluate_trick_witness :
    (evaluateTrick scenarioAState).currentPlayer = 1 ∧
    (evaluateTrick scenarioAState).roundTrickWins.getD 1 0 = 1 ∧
    (evaluateTrick scenarioAState).currentTrick = [] := by
  have h := claim6_evaluate_trick scenarioAState "♠"
    { card := spadeJack, player := 0 }
    [{ card := spadeTen, player := 1 }, { card := heartAce, player := 2 }]
    { card := spadeTen, player := 1 }
    (by decide) (by decide) (by decide) (by decide) (by decide) (by decide) (by decide)
  exact ⟨h.2.2.2.2.2.2.1, h.2.2.2.2.1, h.2.2.2.2.2.1⟩

/-! ## Claim C7: armoede sub-phase trigger after dealing -/

theorem getD_replicate_lt {α : Type} (n i : Nat) (a d : α) (h : i < n) :
    (List.replicate n a).getD i d = a := by
  induction n generalizing i with
  | zero => omega
  | succ m ih =>
    cases i with
    | zero => rfl
    | succ k =>
      rw [List.replicate_succ, List.getD_cons_succ]
      exact ih k (by omega)

theorem dealToPlayers_length (ps : List Player) (deck : List Card) :
    (dealToPlayers ps deck).1.length = ps.length := by
  induction ps generalizing deck with
  | nil => simp [dealToPlayers]
  | cons p t ih => simp [dealToPlayers, ih]

theorem dealToPlayers_points (ps : List Player) (deck : List Card) (i : Nat) :
    ((dealToPlayers ps deck).1.getD i defaultPlayer).points =
      (ps.getD i defaultPlayer).points := by
  induction ps generalizing deck i with
  | nil => simp [dealToPlayers]
  | cons p t ih =>
    cases i with
    | zero => simp [dealToPlayers]
    | succ n =>
      rw [dealToPlayers]
      dsimp only
      rw [List.getD_cons_succ, List.getD_cons_succ]
      exact ih _ n

theorem map_clearVisible_points (ps : List Player) (i : Nat) :
    ((ps.map (fun p => { p with cardsVisible := false })).getD i defaultPlayer).points =
      (ps.getD i defaultPlayer).points := by
  induction ps generalizing i with
  | nil => simp
  | cons p t ih =>
    cases i with
    | zero => simp
    | succ n =>
      rw [List.map_cons, List.getD_cons_succ, List.getD_cons_succ]
      exact ih n

theorem createDeckAndDeal_fst (gs : GameState) (deck : List Card) :
    (createDeckAndDeal gs deck).1 =
      { gs with players := (dealToPlayers gs.players deck).1,
                deck := (dealToPlayers gs.players deck).2 } := by
  unfold createDeckAndDeal
  dsimp only
  split <;> rfl

theorem createDeckAndDeal_snd_armoede (gs : GameState) (deck : List Card) :
    (createDeckAndDeal gs deck).2 = "armoede" ↔
      hasArmoede (createDeckAndDeal gs deck).1 = true := by
  unfold createDeckAndDeal
  dsimp only
  split
  next h => simpa using h
  next h => simp only [Bool.not_eq_true] at h; simp [h]

theorem hasArmoede_iff (gs : GameState) :
    hasArmoede gs = true ↔ ∃ i, i < gs.players.length ∧ i ∈ gs.playersInRound ∧
      (gs.players.getD i defaultPlayer).points = 9 := by
  unfold hasArmoede
  rw [List.any_eq_true]
  constructor
  · rintro ⟨i, hi, hcond⟩
    rw [Bool.and_eq_true, decide_eq_true_eq, decide_eq_true_eq] at hcond
    exact ⟨i, List.mem_range.mp hi, hcond.2, hcond.1⟩
  · rintro ⟨i, h1, h2, h3⟩
    refine ⟨i, List.mem_range.mpr h1, ?_⟩
    rw [Bool.and_eq_true, decide_eq_true_eq, decide_eq_true_eq]
    exact ⟨h3, h2⟩

/-- Claim C7, confirmed: the next-round deal enters the armoede sub-phase
with penalty 2 exactly when some in-round seat's score equals 9
(`eliminationThreshold - 1`); otherwise the state proceeds through the
laundry phase with no card played and no armoede.  The initial `startGame`
deal (all scores 0) likewise never triggers it. -/
theorem claim7_armoede_after_deal (gs : GameState) (shuffledDeck : List Card) :
    ((startNextRound gs shuffledDeck).gamePhase = GamePhase.armoede ↔
      ∃ i, i < gs.players.length ∧ i ∈ gs.playersInRound ∧
        (gs.players.getD i defaultPlayer).points = 9) ∧
    ((startNextRound gs shuffledDeck).gamePhase = GamePhase.armoede →
      (startNextRound gs shuffledDeck).armoedePenalty = 2) ∧
    ((startNextRound gs shuffledDeck).gamePhase ≠ GamePhase.armoede →
      (startNextRound gs shuffledDeck).gamePhase = GamePhase.laundry) ∧
    (∀ n, (startGame n shuffledDeck).gamePhase = GamePhase.laundry) := by
  have hdeal : ∀ gs2 : GameState, hasArmoede (createDeckAndDeal gs2 shuffledDeck).1 = true ↔
      ∃ i, i < gs2.players.length ∧ i ∈ gs2.playersInRound ∧
        (gs2.players.getD i defaultPlayer).points = 9 := by
    intro gs2
    rw [createDeckAndDeal_fst, hasArmoede_iff]
    dsimp only
    constructor
    · rintro ⟨i, h1, h2, h3⟩
      rw [dealToPlayers_length] at h1
      rw [dealToPlayers_points] at h3
      exact ⟨i, h1, h2, h3⟩
    · rintro ⟨i, h1, h2, h3⟩
      refine ⟨i, ?_, h2, ?_⟩
      · rw [dealToPlayers_length]; exact h1
      · rw [dealToPlayers_points]; exact h3
  have hpos : (∃ i, i < gs.players.length ∧ i ∈ gs.playersInRound ∧
      (gs.players.getD i defaultPlayer).points = 9) →
      (startNextRound gs shuffledDeck).gamePhase = GamePhase.armoede ∧
      (startNextRound gs shuffledDeck).armoedePenalty = 2 := by
    rintro ⟨i, h1, h2, h3⟩
    unfold startNextRound
    dsimp only
    rw [if_pos ?hcond]
    case hcond =>
      rw [createDeckAndDeal_snd_armoede, hdeal]
      refine ⟨i, ?_, h2, ?_⟩
      · dsimp only; rw [List.length_map]; exact h1
      · dsimp only; rw [map_clearVisible_points]; exact h3
    exact ⟨rfl, rfl⟩
  have hneg : (¬ ∃ i, i < gs.players.length ∧ i ∈ gs.playersInRound ∧
      (gs.players.getD i defaultPlayer).points = 9) →
      (startNextRound gs shuffledDeck).gamePhase = GamePhase.laundry := by
    intro hn
    unfold startNextRound
    dsimp only
    rw [if_neg ?hcond]
    case hcond =>
      rw [createDeckAndDeal_snd_armoede, hdeal]
      rintro ⟨i, h1, h2, h3⟩
      dsimp only at h1 h3
      rw [List.length_map] at h1
      rw [map_clearVisible_points] at h3
      exact hn ⟨i, h1, h2, h3⟩
    rw [apply_ite GameState.gamePhase]
    rw [createDeckAndDeal_fst]
    dsimp only
    rw [ite_self]
  refine ⟨?_, ?_, ?_, ?_⟩
  · constructor
    · intro hph
      by_contra hnc
      rw [hneg hnc] at hph
      exact absurd hph (by decide)
    · intro hc
      exact (hpos hc).1
  · intro hph
    by_cases hc : ∃ i, i < gs.players.length ∧ i ∈ gs.playersInRound ∧
        (gs.players.getD i defaultPlayer).points = 9
    · exact (hpos hc).2
    · rw [hneg hc] at hph
      exact absurd hph (by decide)
  · intro hph
    by_cases hc : ∃ i, i < gs.players.length ∧ i ∈ gs.playersInRound ∧
        (gs.players.getD i defaultPlayer).points = 9
    · exact absurd (hpos hc).1 hph
    · exact hneg hc
  · intro n
    unfold startGame
    dsimp only
    rw [if_neg ?hstart]
    case hstart =>
      rw [createDeckAndDeal_snd_armoede]
      intro habs
      obtain ⟨i, h1, _, h3⟩ := (hasArmoede_iff _).mp habs
      rw [createDeckAndDeal_fst] at h1 h3
      dsimp only at h1 h3
      rw [dealToPlayers_length] at h1
      rw [dealToPlayers_points] at h3
      have hlen : (initialGameState n).players.length = n := by
        simp [initialGameState]
      rw [hlen] at h1
      have : ((initialGameState n).players.getD i defaultPlayer).points = 0 := by
        show ((List.replicate n defaultPlayer).getD i defaultPlayer).points = 0
        rw [getD_replicate_lt n i defaultPlayer defaultPlayer h1]
        rfl
      rw [this] at h3
      exact absurd h3 (by decide)
    rw [createDeckAndDeal_fst]
    rfl

/-- Witness for `claim7_armoede_after_deal`: with seat 0 at exactly 9 points
the next deal enters armoede with penalty 2; with seat 0 at 8 points it
proceeds to the laundry window. -/
theorem claim7_armoede_after_deal_witness :
    (startNextRound armoedeEdgeState fillerDeck).gamePhase = GamePhase.armoede ∧
    (startNextRound armoedeEdgeState fillerDeck).armoedePenalty = 2 ∧
    (startNextRound { armoedeEdgeState with
        players := [mkPlayer 8 [], mkPlayer 0 [], mkPlayer 0 []] } fillerDeck).gamePhase =
      GamePhase.laundry := by
  have h := claim7_armoede_after_deal armoedeEdgeState fillerDeck
  have hc : ∃ i, i < armoedeEdgeState.players.length ∧ i ∈ armoedeEdgeState.playersInRound ∧
      (armoedeEdgeState.players.getD i defaultPlayer).points = 9 :=
    ⟨0, by decide, by decide, by decide⟩
  have hph := h.1.mpr hc
  have h2 := claim7_armoede_after_deal
    { armoedeEdgeState with players := [mkPlayer 8 [], mkPlayer 0 [], mkPlayer 0 []] } fillerDeck
  refine ⟨hph, h.2.1 hph, h2.2.2.1 ?_⟩
  intro habs
  obtain ⟨i, h1, _, h3⟩ := h2.1.mp habs
  have h1' : i < 3 := by simpa using h1
  interval_cases i <;> revert h3 <;> decide

/-! ## Claim C3: round-end penalties -/

theorem foldl_modifyIf_length {α : Type} (c : Nat → Prop) [DecidablePred c] (f : Nat → α → α)
    (l : List Nat) (ps : List α) :
    (l.foldl (fun acc i => if c i then modifyAt acc i (f i) else acc) ps).length = ps.length := by
  induction l generalizing ps with
  | nil => rfl
  | cons a t ih =>
    rw [List.foldl_cons, ih]
    by_cases h : c a
    · rw [if_pos h, modifyAt_length]
    · rw [if_neg h]

theorem foldl_modifyIf_getD {α : Type} (c : Nat → Prop) [DecidablePred c] (f : Nat → α → α)
    (d : α) (l : List Nat) :
    ∀ (ps : List α) (k : Nat), l.Nodup → k < ps.length →
    (l.foldl (fun acc i => if c i then modifyAt acc i (f i) else acc) ps).getD k d =
      if k ∈ l ∧ c k then f k (ps.getD k d) else ps.getD k d := by
  induction l with
  | nil =>
    intro ps k _ _
    simp
  | cons a t ih =>
    intro ps k hnd hk
    rw [List.foldl_cons]
    rcases List.nodup_cons.mp hnd with ⟨ha, hndt⟩
    by_cases hca : c a
    · rw [if_pos hca]
      have hlen : k < (modifyAt ps a (f a)).length := by rw [modifyAt_length]; exact hk
      rw [ih (modifyAt ps a (f a)) k hndt hlen]
      by_cases hka : k = a
      · subst hka
        have hnt : ¬ (k ∈ t ∧ c k) := fun hcon => ha hcon.1
        rw [if_neg hnt, modifyAt_getD_self _ _ _ _ hk,
          if_pos ⟨List.mem_cons_self k t, hca⟩]
      · rw [modifyAt_getD_ne _ _ _ _ _ (fun h => hka h.symm)]
        by_cases hkt : k ∈ t ∧ c k
        · rw [if_pos hkt, if_pos ⟨List.mem_cons_of_mem a hkt.1, hkt.2⟩]
        · have hnc : ¬ (k ∈ a :: t ∧ c k) := by
            intro hcon
            rcases List.mem_cons.mp hcon.1 with h | h
            · exact hka h
            · exact hkt ⟨h, hcon.2⟩
          rw [if_neg hkt, if_neg hnc]
    · rw [if_neg hca, ih ps k hndt hk]
      by_cases hkt : k ∈ t ∧ c k
      · rw [if_pos hkt, if_pos ⟨List.mem_cons_of_mem a hkt.1, hkt.2⟩]
      · have hnc : ¬ (k ∈ a :: t ∧ c k) := by
          intro hcon
          rcases List.mem_cons.mp hcon.1 with h | h
          · subst h; exact hca hcon.2
          · exact hkt ⟨h, hcon.2⟩
        rw [if_neg hkt, if_neg hnc]

theorem foldl_skipIf_getD {α : Type} (c : Nat → Prop) [DecidablePred c] (f : Nat → α → α)
    (d : α) (l : List Nat) (ps : List α) (k : Nat) (hnd : l.Nodup) (hk : k < ps.length) :
    (l.foldl (fun acc i => if c i then acc else modifyAt acc i (f i)) ps).getD k d =
      if k ∈ l ∧ ¬ c k then f k (ps.getD k d) else ps.getD k d := by
  have hfun : (fun (acc : List α) i => if c i then acc else modifyAt acc i (f i)) =
      (fun acc i => if ¬ c i then modifyAt acc i (f i) else acc) := by
    funext acc i
    by_cases h : c i <;> simp [h]
  rw [hfun, foldl_modifyIf_getD (fun i => ¬ c i) f d l ps k hnd hk]

theorem mem_endRoundWinners (gs : GameState) (k : Nat) :
    k ∈ endRoundWinners gs ↔
      k < gs.roundTrickWins.length ∧
      gs.roundTrickWins.getD k 0 = listMax gs.roundTrickWins ∧
      k ∈ gs.playersInRound := by
  unfold endRoundWinners
  rw [List.mem_filter, List.mem_range]
  rw [Bool.and_eq_true, decide_eq_true_eq, decide_eq_true_eq]

theorem endRound_players_getD (gs : GameState) (k : Nat)
    (hnd : gs.playersInRound.Nodup) (hkp : k < gs.players.length) :
    (endRound gs).players.getD k defaultPlayer =
      if k ∈ gs.playersInRound ∧ ¬ k ∈ endRoundWinners gs then
        { gs.players.getD k defaultPlayer with
          points := (gs.players.getD k defaultPlayer).points +
            gs.playerStakesOnEntry.getD k 0 }
      else gs.players.getD k defaultPlayer := by
  unfold endRound
  dsimp only
  rw [apply_ite GameState.players]
  dsimp only
  rw [ite_self]
  exact foldl_skipIf_getD (fun i => i ∈ endRoundWinners gs)
    (fun i p => { p with points := p.points + gs.playerStakesOnEntry.getD i 0 })
    defaultPlayer gs.playersInRound gs.players k hnd hkp

/-- Claim C3 as stated is false on the code: `endRound` computes `maxTricks`
with `Math.max(...roundTrickWins)` over ALL seats, not only over
`seatsInRound`.  In `foldedMaxState` seat 2 is the only seat left in the
round and trivially ties the in-round maximum (0 tricks), yet it is
penalised because the already-folded seat 0 holds the global maximum of 1
trick. -/
theorem claim3_counterexample :
    (2 ∈ foldedMaxState.playersInRound ∧
      ∀ j ∈ foldedMaxState.playersInRound,
        foldedMaxState.roundTrickWins.getD j 0 ≤ foldedMaxState.roundTrickWins.getD 2 0) ∧
    ((endRound foldedMaxState).players.getD 2 defaultPlayer).points =
      (foldedMaxState.players.getD 2 defaultPlayer).points + 1 := by
  exact ⟨by decide, by decide⟩

/-- Claim C3, amended: at round end `maxTricks` is the maximum trick-won
count over ALL seats (folded seats included); every seat in `seatsInRound`
whose count is below that global maximum is penalised by exactly its own
entry-stake snapshot, and every seat in `seatsInRound` whose count equals
the global maximum is penalised nothing. -/
theorem claim3_amended_endround (gs : GameState) (k : Nat)
    (hnd : gs.playersInRound.Nodup)
    (hk : k ∈ gs.playersInRound)
    (hkp : k < gs.players.length)
    (hkt : k < gs.roundTrickWins.length) :
    ((endRound gs).players.getD k defaultPlayer).points =
      if gs.roundTrickWins.getD k 0 = listMax gs.roundTrickWins
      then (gs.players.getD k defaultPlayer).points
      else (gs.players.getD k defaultPlayer).points + gs.playerStakesOnEntry.getD k 0 := by
  rw [endRound_players_getD gs k hnd hkp]
  by_cases hmax : gs.roundTrickWins.getD k 0 = listMax gs.roundTrickWins
  · rw [if_pos hmax]
    have hw : k ∈ endRoundWinners gs := (mem_endRoundWinners gs k).mpr ⟨hkt, hmax, hk⟩
    rw [if_neg (fun hcon => hcon.2 hw)]
  · rw [if_neg hmax]
    have hw : ¬ k ∈ endRoundWinners gs := fun hcon =>
      hmax ((mem_endRoundWinners gs k).mp hcon).2.1
    rw [if_pos ⟨hk, hw⟩]

/-- Witness for `claim3_amended_endround`: in `foldedMaxState` seat 2 sits
below the global maximum of 1 trick and is penalised by its entry stake
of 1. -/
theorem claim3_amended_endround_witness :
    ((endRound foldedMaxState).players.getD 2 defaultPlayer).points =
      (foldedMaxState.players.getD 2 defaultPlayer).points +
        foldedMaxState.playerStakesOnEntry.getD 2 0 := by
  have h := claim3_amended_endround foldedMaxState 2 (by decide) (by decide) (by decide)
    (by decide)
  rw [h, if_neg (by decide)]

/-! ## Claim C2: raise responses (accept / fold accounting) -/

theorem modifyAt_get?_ne {α : Type} (l : List α) (i j : Nat) (f : α → α) (h : i ≠ j) :
    (modifyAt l i f).get? j = l.get? j := by
  induction l generalizing i j with
  | nil => simp [modifyAt]
  | cons a t ih =>
    cases i with
    | zero =>
      cases j with
      | zero => exact absurd rfl h
      | succ m => simp [modifyAt]
    | succ n =>
      cases j with
      | zero => simp [modifyAt]
      | succ m =>
        simp only [modifyAt, List.get?_cons_succ]
        exact ih n m (by omega)

theorem modifyAt_get?_self {α : Type} (l : List α) (i : Nat) (f : α → α) (x : α)
    (h : l.get? i = some x) : (modifyAt l i f).get? i = some (f x) := by
  induction l generalizing i with
  | nil => simp at h
  | cons a t ih =>
    cases i with
    | zero =>
      simp only [List.get?_cons_zero, Option.some_inj] at h
      subst h
      simp [modifyAt]
    | succ n =>
      simp only [modifyAt, List.get?_cons_succ] at h ⊢
      exact ih n h

theorem getD_eq_of_get? {α : Type} (l : List α) (n : Nat) (x d : α) (h : l.get? n = some x) :
    l.getD n d = x := by
  rw [List.getD_eq_getElem?_getD, ← List.get?_eq_getElem?, h]
  rfl

theorem foldl_invariant {α β : Type} (P : β → Prop) (step : β → α → β) :
    ∀ (l : List α) (b : β), P b → (∀ b' a, a ∈ l → P b' → P (step b' a)) →
      P (l.foldl step b) := by
  intro l
  induction l with
  | nil => intro b hb _; exact hb
  | cons x t ih =>
    intro b hb hstep
    rw [List.foldl_cons]
    exact ih (step b x) (hstep b x (List.mem_cons_self x t) hb)
      (fun b' a ha hP => hstep b' a (List.mem_cons_of_mem x ha) hP)

theorem length_filter_lt_of_mem_not {α : Type} (p : α → Bool) (x : α) :
    ∀ (l : List α), x ∈ l → p x = false → (l.filter p).length < l.length := by
  intro l
  induction l with
  | nil => intro hx; cases hx
  | cons a t ih =>
    intro hx hpx
    rw [List.filter_cons]
    rcases List.mem_cons.mp hx with h | h
    · subst h
      rw [hpx]
      simp only [Bool.false_eq_true, if_false, List.length_cons]
      have := List.length_filter_le p t
      omega
    · by_cases hpa : p a = true
      · rw [hpa]
        simp only [if_true, List.length_cons]
        exact Nat.succ_lt_succ (ih h hpx)
      · rw [Bool.not_eq_true] at hpa
        rw [hpa]
        simp only [Bool.false_eq_true, if_false, List.length_cons]
        have := ih h hpx
        omega

theorem isPlayingForDeath_congr (g gs : GameState) (j : Nat)
    (hp : g.players = gs.players)
    (he : g.playerStakesOnEntry.getD j 0 = gs.playerStakesOnEntry.getD j 0) :
    isPlayingForDeath g j = isPlayingForDeath gs j := by
  unfold isPlayingForDeath
  rw [hp, he]

theorem autoAcceptDeaths_stalled (gs : GameState) (r : List (Option Response)) (i j : Nat)
    (hij : j ≠ i)
    (hresp : gs.toepResponses = some r)
    (hjr : r.get? j = some none)
    (hine : ¬ r.get? i = some none)
    (hjd : isPlayingForDeath gs j = false) :
    (autoAcceptDeaths gs).players = gs.players ∧
    (autoAcceptDeaths gs).playersInRound = gs.playersInRound ∧
    (autoAcceptDeaths gs).gamePhase = gs.gamePhase ∧
    (autoAcceptDeaths gs).stakes = gs.stakes ∧
    (autoAcceptDeaths gs).playerStakesOnEntry.getD j 0 = gs.playerStakesOnEntry.getD j 0 ∧
    (autoAcceptDeaths gs).playerStakesOnEntry.getD i 0 = gs.playerStakesOnEntry.getD i 0 ∧
    ∃ r1, (autoAcceptDeaths gs).toepResponses = some r1 ∧ r1.get? j = some none ∧
      r1.get? i = r.get? i := by
  unfold autoAcceptDeaths
  refine foldl_invariant
    (P := fun g => g.players = gs.players ∧ g.playersInRound = gs.playersInRound ∧
      g.gamePhase = gs.gamePhase ∧ g.stakes = gs.stakes ∧
      g.playerStakesOnEntry.getD j 0 = gs.playerStakesOnEntry.getD j 0 ∧
      g.playerStakesOnEntry.getD i 0 = gs.playerStakesOnEntry.getD i 0 ∧
      ∃ r1, g.toepResponses = some r1 ∧ r1.get? j = some none ∧ r1.get? i = r.get? i)
    _ gs.playersInRound gs
    ⟨rfl, rfl, rfl, rfl, rfl, rfl, r, hresp, hjr, rfl⟩ ?_
  rintro g a ha ⟨hp, hr, hph, hst, hej, hei, r1, hr1, hjr1, hir1⟩
  rw [hr1]
  dsimp only
  by_cases hcond : r1.get? a = some none ∧ isPlayingForDeath g a = true
  · have hai : a ≠ i := by
      intro hcon
      subst hcon
      rw [hir1] at hcond
      exact hine hcond.1
    have haj : a ≠ j := by
      intro hcon
      subst hcon
      rw [isPlayingForDeath_congr g gs a hp hej] at hcond
      rw [hjd] at hcond
      exact absurd hcond.2 (by simp)
    rw [if_pos hcond]
    refine ⟨hp, hr, hph, hst, ?_, ?_, setAt r1 a (some Response.accept), rfl, ?_, ?_⟩
    · dsimp only
      rw [show setAt g.playerStakesOnEntry a g.stakes =
        modifyAt g.playerStakesOnEntry a (fun _ => g.stakes) from rfl]
      rw [modifyAt_getD_ne _ _ _ _ _ haj]
      exact hej
    · dsimp only
      rw [show setAt g.playerStakesOnEntry a g.stakes =
        modifyAt g.playerStakesOnEntry a (fun _ => g.stakes) from rfl]
      rw [modifyAt_getD_ne _ _ _ _ _ hai]
      exact hei
    · rw [show setAt r1 a (some Response.accept) =
        modifyAt r1 a (fun _ => some Response.accept) from rfl]
      rw [modifyAt_get?_ne _ _ _ _ haj]
      exact hjr1
    · rw [show setAt r1 a (some Response.accept) =
        modifyAt r1 a (fun _ => some Response.accept) from rfl]
      rw [modifyAt_get?_ne _ _ _ _ hai]
      exact hir1
  · rw [if_neg hcond]
    exact ⟨hp, hr, hph, hst, hej, hei, r1, hr1, hjr1, hir1⟩

theorem autoAcceptDeaths_id (gs : GameState) (r : List (Option Response))
    (hresp : gs.toepResponses = some r)
    (hall : ∀ a ∈ gs.playersInRound, ¬ r.get? a = some none) :
    autoAcceptDeaths gs = gs := by
  unfold autoAcceptDeaths
  refine foldl_invariant (P := fun g => g = gs) _ gs.playersInRound gs rfl ?_
  rintro g a ha rfl
  rw [hresp]
  dsimp only
  rw [if_neg (fun hcon => hall a ha hcon.1)]

theorem checkToepResponses_stalled (gs : GameState) (r : List (Option Response)) (i j : Nat)
    (hij : j ≠ i)
    (hresp : gs.toepResponses = some r)
    (hjmem : j ∈ gs.playersInRound)
    (hjr : r.get? j = some none)
    (hine : ¬ r.get? i = some none)
    (hjd : isPlayingForDeath gs j = false) :
    (checkToepResponses gs).players = gs.players ∧
    (checkToepResponses gs).playersInRound = gs.playersInRound ∧
    (checkToepResponses gs).gamePhase = gs.gamePhase ∧
    (checkToepResponses gs).playerStakesOnEntry.getD i 0 = gs.playerStakesOnEntry.getD i 0 ∧
    ∃ r1, (checkToepResponses gs).toepResponses = some r1 ∧ r1.get? i = r.get? i := by
  obtain ⟨hp, hr, hph, hst, hej, hei, r1, hr1, hjr1, hir1⟩ :=
    autoAcceptDeaths_stalled gs r i j hij hresp hjr hine hjd
  unfold checkToepResponses
  dsimp only
  rw [hr1]
  dsimp only
  rw [if_neg ?hne]
  case hne =>
    intro hcon
    have hmem : (none : Option Response) ∈
        (autoAcceptDeaths gs).playersInRound.map (fun a => r1.getD a none) := by
      have hval : r1.getD j none = none := getD_eq_of_get? r1 j none none hjr1
      have hjin : j ∈ (autoAcceptDeaths gs).playersInRound := by rw [hr]; exact hjmem
      have hmem0 := List.mem_map_of_mem (fun a => r1.getD a none) hjin
      simpa only [hval] using hmem0
    have hlt := length_filter_lt_of_mem_not Option.isSome (none : Option Response)
      ((autoAcceptDeaths gs).playersInRound.map (fun a => r1.getD a none)) hmem rfl
    rw [List.length_map] at hlt
    omega
  exact ⟨hp, hr, hph, hei, r1, hr1, hir1⟩

theorem checkToepResponses_complete (gs : GameState) (r : List (Option Response)) (k : Nat)
    (hresp : gs.toepResponses = some r)
    (hall : ∀ a ∈ gs.playersInRound, a < r.length ∧ ¬ r.get? a = some none)
    (hnd : gs.playersInRound.Nodup)
    (hk : k ∈ gs.playersInRound)
    (hkp : k < gs.players.length)
    (hsurv : 2 ≤ (gs.playersInRound.filter
        (fun a => decide (¬ r.getD a none = some Response.fold))).length) :
    (r.getD k none = some Response.fold →
        ((checkToepResponses gs).players.getD k defaultPlayer).points =
          (gs.players.getD k defaultPlayer).points + gs.playerStakesOnEntry.getD k 0 ∧
        k ∉ (checkToepResponses gs).playersInRound) ∧
    (¬ r.getD k none = some Response.fold →
        ((checkToepResponses gs).players.getD k defaultPlayer).points =
          (gs.players.getD k defaultPlayer).points ∧
        k ∈ (checkToepResponses gs).playersInRound) ∧
    (checkToepResponses gs).gamePhase = GamePhase.playing := by
  have hid : autoAcceptDeaths gs = gs :=
    autoAcceptDeaths_id gs r hresp (fun a ha hc => (hall a ha).2 hc)
  unfold checkToepResponses
  dsimp only
  rw [hid, hresp]
  dsimp only
  have hfilter : (gs.playersInRound.map (fun a => r.getD a none)).filter Option.isSome =
      gs.playersInRound.map (fun a => r.getD a none) := by
    apply List.filter_eq_self.mpr
    intro x hx
    obtain ⟨a, ha, hax⟩ := List.mem_map.mp hx
    obtain ⟨hlt, hnn⟩ := hall a ha
    cases hy : r.get? a with
    | none =>
      rw [List.get?_eq_none] at hy
      omega
    | some y =>
      cases y with
      | none => exact absurd hy hnn
      | some v =>
        rw [← hax, getD_eq_of_get? r a (some v) none hy]
        rfl
  rw [if_pos (by rw [hfilter, List.length_map])]
  have hfc : gs.playersInRound.filter
        (fun a => decide (a ∉ gs.playersInRound.filter
          (fun b => decide (r.getD b none = some Response.fold)))) =
      gs.playersInRound.filter (fun a => decide (¬ r.getD a none = some Response.fold)) := by
    apply List.filter_congr
    intro a ha
    apply decide_eq_decide.mpr
    constructor
    · intro hnm hfold
      exact hnm (List.mem_filter.mpr ⟨ha, decide_eq_true hfold⟩)
    · intro hnf hm
      exact hnf (of_decide_eq_true (List.mem_filter.mp hm).2)
  rw [hfc]
  rw [if_neg ?hone]
  case hone =>
    omega
  dsimp only
  have hpoints := foldl_modifyIf_getD
    (fun a => r.getD a none = some Response.fold)
    (fun a p => { p with points := p.points + gs.playerStakesOnEntry.getD a 0 })
    defaultPlayer gs.playersInRound gs.players k hnd hkp
  refine ⟨?_, ?_, rfl⟩
  · intro hfold
    constructor
    · rw [hpoints, if_pos ⟨hk, hfold⟩]
    · intro hcon
      have := List.mem_filter.mp hcon
      exact absurd hfold (of_decide_eq_true this.2)
  · intro hnfold
    constructor
    · rw [hpoints, if_neg (fun hcon => hnfold hcon.2)]
    · exact List.mem_filter.mpr ⟨hk, decide_eq_true hnfold⟩

/-- Claim C2, confirmed: (1) a raise never touches the entry stakes of the
other seats, so their pre-raise snapshots survive; (2) while another
compliant seat is still pending, an accept sets the accepting seat's entry
stake to the new raised stakes; (3) under the same condition a fold (by a
seat not playing for death) only records the fold — scores, round
membership and the folder's entry stake are all untouched at that moment;
(4) when the response set completes, every folded seat is penalised by
exactly the entry stake it then holds and is removed from the round, while
every other seat keeps its score and stays; (5) Scenario B: from stakes 1,
seat 0 raises to 2 (entry 2), seat 1 folds and is penalised its pre-raise
entry of 1, seat 2 accepts at entry 2, and play resumes. -/
theorem claim2_raise_response :
    (∀ (gs : GameState) (i j : Nat), j ≠ i →
      ((processToep gs i).1).playerStakesOnEntry.getD j 0 =
        gs.playerStakesOnEntry.getD j 0) ∧
    (∀ (gs : GameState) (r : List (Option Response)) (i j : Nat),
      gs.gamePhase = GamePhase.toepResponse →
      gs.toepResponses = some r →
      r.get? i = some none →
      i < gs.playerStakesOnEntry.length →
      j ≠ i → j ∈ gs.playersInRound → r.get? j = some none →
      isPlayingForDeath gs j = false →
      (processAcceptToep gs i).playerStakesOnEntry.getD i 0 = gs.stakes) ∧
    (∀ (gs : GameState) (r : List (Option Response)) (i j : Nat),
      gs.gamePhase = GamePhase.toepResponse →
      gs.toepResponses = some r →
      r.get? i = some none →
      isPlayingForDeath gs i = false →
      j ≠ i → j ∈ gs.playersInRound → r.get? j = some none →
      isPlayingForDeath gs j = false →
      (∃ r1, (processFoldToToep gs i).toepResponses = some r1 ∧
        r1.get? i = some (some Response.fold)) ∧
      (processFoldToToep gs i).players = gs.players ∧
      (processFoldToToep gs i).playersInRound = gs.playersInRound ∧
      (processFoldToToep gs i).playerStakesOnEntry.getD i 0 =
        gs.playerStakesOnEntry.getD i 0) ∧
    (∀ (gs : GameState) (r : List (Option Response)) (k : Nat),
      gs.toepResponses = some r →
      (∀ a ∈ gs.playersInRound, a < r.length ∧ ¬ r.get? a = some none) →
      gs.playersInRound.Nodup →
      k ∈ gs.playersInRound →
      k < gs.players.length →
      2 ≤ (gs.playersInRound.filter
        (fun a => decide (¬ r.getD a none = some Response.fold))).length →
      (r.getD k none = some Response.fold →
        ((checkToepResponses gs).players.getD k defaultPlayer).points =
          (gs.players.getD k defaultPlayer).points + gs.playerStakesOnEntry.getD k 0 ∧
        k ∉ (checkToepResponses gs).playersInRound) ∧
      (¬ r.getD k none = some Response.fold →
        ((checkToepResponses gs).players.getD k defaultPlayer).points =
          (gs.players.getD k defaultPlayer).points ∧
        k ∈ (checkToepResponses gs).playersInRound)) ∧
    ((processToep basePlayingState 0).1.stakes = 2 ∧
      (processToep basePlayingState 0).1.playerStakesOnEntry.getD 0 0 = 2 ∧
      ((processAcceptToep (processFoldToToep (processToep basePlayingState 0).1 1) 2).players.getD
          1 defaultPlayer).points = 1 ∧
      1 ∉ (processAcceptToep (processFoldToToep
          (processToep basePlayingState 0).1 1) 2).playersInRound ∧
      (processAcceptToep (processFoldToToep
          (processToep basePlayingState 0).1 1) 2).playerStakesOnEntry.getD 2 0 = 2 ∧
      (processAcceptToep (processFoldToToep
          (processToep basePlayingState 0).1 1) 2).gamePhase = GamePhase.playing) := by
  refine ⟨?_, ?_, ?_, ?_, ?_⟩
  · intro gs i j hji
    unfold processToep
    by_cases hg : gs.currentPlayer = i ∧ gs.gamePhase = GamePhase.playing ∧
        gs.lastToeper ≠ (i : Int)
    · rw [if_pos hg]
      by_cases hd : isPlayingForDeath gs i
      · rw [if_pos hd]
      · rw [if_neg hd]
        dsimp only
        rw [show setAt gs.playerStakesOnEntry i (gs.stakes + 1) =
          modifyAt gs.playerStakesOnEntry i (fun _ => gs.stakes + 1) from rfl]
        rw [modifyAt_getD_ne _ _ _ _ _ (fun h => hji h.symm)]
    · rw [if_neg hg]
  · intro gs r i j hph hresp hpend hilen hji hjmem hjr hjd
    have hpn : (pendingNull gs.toepResponses i) = true := by
      rw [hresp]
      unfold pendingNull
      exact decide_eq_true hpend
    unfold processAcceptToep
    rw [if_pos ⟨hph, hpn⟩]
    have hstall := checkToepResponses_stalled
      { gs with toepResponses := setRespAt gs.toepResponses i Response.accept,
                playerStakesOnEntry := setAt gs.playerStakesOnEntry i gs.stakes }
      (setAt r i (some Response.accept)) i j hji
      (by dsimp only; rw [hresp]; rfl)
      hjmem
      (by rw [show setAt r i (some Response.accept) =
            modifyAt r i (fun _ => some Response.accept) from rfl,
          modifyAt_get?_ne _ _ _ _ (Ne.symm hji)]; exact hjr)
      (by rw [show setAt r i (some Response.accept) =
            modifyAt r i (fun _ => some Response.accept) from rfl,
          modifyAt_get?_self _ _ _ _ hpend]; simp)
      (by
        have hcg := isPlayingForDeath_congr
          { gs with toepResponses := setRespAt gs.toepResponses i Response.accept,
                    playerStakesOnEntry := setAt gs.playerStakesOnEntry i gs.stakes } gs j rfl
          (by
            dsimp only
            rw [show setAt gs.playerStakesOnEntry i gs.stakes =
              modifyAt gs.playerStakesOnEntry i (fun _ => gs.stakes) from rfl,
              modifyAt_getD_ne _ _ _ _ _ (fun h => hji h.symm)])
        exact hcg.trans hjd)
    rw [hstall.2.2.2.1]
    dsimp only
    rw [show setAt gs.playerStakesOnEntry i gs.stakes =
      modifyAt gs.playerStakesOnEntry i (fun _ => gs.stakes) from rfl,
      modifyAt_getD_self _ _ _ _ hilen]
  · intro gs r i j hph hresp hpend hdi hji hjmem hjr hjd
    have hpn : (pendingNull gs.toepResponses i) = true := by
      rw [hresp]
      unfold pendingNull
      exact decide_eq_true hpend
    unfold processFoldToToep
    rw [if_pos ⟨hph, hpn⟩]
    rw [if_neg (by rw [hdi]; simp)]
    have hstall := checkToepResponses_stalled
      { gs with toepResponses := setRespAt gs.toepResponses i Response.fold }
      (setAt r i (some Response.fold)) i j hji
      (by dsimp only; rw [hresp]; rfl)
      hjmem
      (by rw [show setAt r i (some Response.fold) =
            modifyAt r i (fun _ => some Response.fold) from rfl,
          modifyAt_get?_ne _ _ _ _ (Ne.symm hji)]; exact hjr)
      (by rw [show setAt r i (some Response.fold) =
            modifyAt r i (fun _ => some Response.fold) from rfl,
          modifyAt_get?_self _ _ _ _ hpend]; simp)
      (by
        have hcg := isPlayingForDeath_congr
          { gs with toepResponses := setRespAt gs.toepResponses i Response.fold } gs j rfl rfl
        exact hcg.trans hjd)
    obtain ⟨hp, hr, hph2, hei, r1, hr1, hir1⟩ := hstall
    refine ⟨⟨r1, hr1, ?_⟩, hp, hr, hei⟩
    rw [hir1, show setAt r i (some Response.fold) =
      modifyAt r i (fun _ => some Response.fold) from rfl,
      modifyAt_get?_self _ _ _ _ hpend]
  · intro gs r k hresp hall hnd hk hkp hsurv
    have h := checkToepResponses_complete gs r k hresp hall hnd hk hkp hsurv
    exact ⟨h.1, h.2.1⟩
  · refine ⟨by decide, by decide, by decide, by decide, by decide, by decide⟩

/-- Witness for `claim2_raise_response`, exercising each clause on the
Scenario B states: the raise leaves seat 1's entry at 1; an accept while a
seat is still pending locks in the raised entry of 2; a fold only records
the fold; and the completed response set penalises the folded seat 1 by
exactly 1 and removes it. -/
theorem claim2_raise_response_witness :
    (processToep basePlayingState 0).1.playerStakesOnEntry.getD 1 0 = 1 ∧
    (processAcceptToep toepPendingState 1).playerStakesOnEntry.getD 1 0 = 2 ∧
    (∃ r1, (processFoldToToep toepPendingState 1).toepResponses = some r1 ∧
      r1.get? 1 = some (some Response.fold)) ∧
    ((checkToepResponses toepRespondedState).players.getD 1 defaultPlayer).points = 1 ∧
    1 ∉ (checkToepResponses toepRespondedState).playersInRound := by
  obtain ⟨h1, h2, h3, h4, _⟩ := claim2_raise_response
  refine ⟨?_, ?_, ?_, ?_, ?_⟩
  · rw [h1 basePlayingState 0 1 (by decide)]
    decide
  · have h := h2 toepPendingState [some Response.accept, none, none] 1 2
      (by decide) (by decide) (by decide) (by decide) (by decide) (by decide)
      (by decide) (by decide)
    rw [h]
    decide
  · exact (h3 toepPendingState [some Response.accept, none, none] 1 2
      (by decide) (by decide) (by decide) (by decide) (by decide) (by decide)
      (by decide) (by decide)).1
  · have h := (h4 toepRespondedState [some Response.accept, some Response.fold,
      some Response.accept] 1 (by decide) (by decide) (by decide) (by decide)
      (by decide) (by decide)).1 (by decide)
    rw [h.1]
    decide
  · exact ((h4 toepRespondedState [some Response.accept, some Response.fold,
      some Response.accept] 1 (by decide) (by decide) (by decide) (by decide)
      (by decide) (by decide)).1 (by decide)).2

/-! ## Claim C8: deferred callbacks and phase re-validation -/

/-- Claim C8 as stated is false on the code: the 3-second trick-evaluation
timer scheduled by `playCard` performs NO phase re-check when it fires (its
body calls `evaluateTrick` unconditionally, which only tests trick
non-emptiness).  `staleTrickTimerState` is the scheduled full trick after
the current player toeped during the display delay: the phase has moved to
`toepResponse`, yet the callback still mutates the round record. -/
theorem claim8_counterexample :
    staleTrickTimerState.gamePhase = GamePhase.toepResponse ∧
    staleTrickTimerState.gamePhase ≠ GamePhase.playing ∧
    staleTrickTimerState.currentTrick ≠ [] ∧
    trickCompleteTimerBody staleTrickTimerState ≠ staleTrickTimerState ∧
    (trickCompleteTimerBody staleTrickTimerState).roundTrickWins ≠
      staleTrickTimerState.roundTrickWins := by
  refine ⟨by decide, by decide, by decide, by decide, by decide⟩

/-- Claim C8, amended: the raise-response and forced-gamble response
timeouts re-check the phase (and presence of their response array), the
laundry-window timers re-check the phase and the inspection flag, and the
inspection-window timeout re-checks that the same claimant's claim is still
pending — each is a no-op otherwise.  The trick-evaluation delay and the
round-transition delay perform no such phase re-check. -/
theorem claim8_amended_timer_guards :
    (∀ gs : GameState, gs.gamePhase ≠ GamePhase.toepResponse → toepTimeoutBody gs = gs) ∧
    (∀ gs : GameState, gs.toepResponses = none → toepTimeoutBody gs = gs) ∧
    (∀ gs : GameState, gs.gamePhase ≠ GamePhase.armoede → armoedeTimeoutBody gs = gs) ∧
    (∀ gs : GameState, gs.armoedeResponses = none → armoedeTimeoutBody gs = gs) ∧
    (∀ gs : GameState, gs.gamePhase ≠ GamePhase.laundry →
      laundryPhaseEndTimerBody gs = gs) ∧
    (∀ gs : GameState, gs.awaitingInspection = true → laundryPhaseEndTimerBody gs = gs) ∧
    (∀ gs : GameState, gs.gamePhase ≠ GamePhase.laundry →
      newRoundLaundryTimerBody gs = gs) ∧
    (∀ gs : GameState, gs.awaitingInspection = true → newRoundLaundryTimerBody gs = gs) ∧
    (∀ (gs : GameState) (c : Nat), gs.awaitingInspection = false →
      laundryClaimTimeoutBody gs c = gs) ∧
    (∀ (gs : GameState) (c : Nat) (pl : PendingLaundry), gs.pendingLaundry = some pl →
      pl.playerIndex ≠ c → laundryClaimTimeoutBody gs c = gs) ∧
    (∀ (gs : GameState) (c : Nat), gs.pendingLaundry = none →
      laundryClaimTimeoutBody gs c = gs) := by
  refine ⟨?_, ?_, ?_, ?_, ?_, ?_, ?_, ?_, ?_, ?_, ?_⟩
  · intro gs h
    unfold toepTimeoutBody
    rw [if_neg (fun hc => h hc.1)]
  · intro gs h
    unfold toepTimeoutBody
    rw [if_neg (fun hc => hc.2 h)]
  · intro gs h
    unfold armoedeTimeoutBody
    rw [if_neg (fun hc => h hc.1)]
  · intro gs h
    unfold armoedeTimeoutBody
    rw [if_neg (fun hc => hc.2 h)]
  · intro gs h
    unfold laundryPhaseEndTimerBody
    rw [if_neg (fun hc => h hc.1)]
  · intro gs h
    unfold laundryPhaseEndTimerBody
    rw [if_neg (fun hc => by rw [h] at hc; exact absurd hc.2 (by simp))]
  · intro gs h
    unfold newRoundLaundryTimerBody
    rw [if_neg (fun hc => h hc.1)]
  · intro gs h
    unfold newRoundLaundryTimerBody
    rw [if_neg (fun hc => by rw [h] at hc; exact absurd hc.2 (by simp))]
  · intro gs c h
    unfold laundryClaimTimeoutBody
    cases hpl : gs.pendingLaundry with
    | none => rfl
    | some pl =>
      dsimp only
      have hng : ¬ (gs.awaitingInspection = true ∧ pl.playerIndex = c) := by
        rintro ⟨h1, _⟩
        rw [h] at h1
        exact absurd h1 (by simp)
      rw [if_neg hng]
  · intro gs c pl hpl hne
    unfold laundryClaimTimeoutBody
    rw [hpl]
    dsimp only
    have hng : ¬ (gs.awaitingInspection = true ∧ pl.playerIndex = c) :=
      fun hc => hne hc.2
    rw [if_neg hng]
  · intro gs c h
    unfold laundryClaimTimeoutBody
    rw [h]

/-- Witness for `claim8_amended_timer_guards` at concrete states: a toep
timeout firing during ordinary play and a laundry-window timeout firing
during the playing phase are both no-ops. -/
theorem claim8_amended_timer_guards_witness :
    toepTimeoutBody basePlayingState = basePlayingState ∧
    laundryPhaseEndTimerBody basePlayingState = basePlayingState ∧
    laundryClaimTimeoutBody basePlayingState 0 = basePlayingState := by
  obtain ⟨h1, _, _, _, h5, _, _, _, _, _, h11⟩ := claim8_amended_timer_guards
  exact ⟨h1 basePlayingState (by decide), h5 basePlayingState (by decide),
    h11 basePlayingState 0 (by decide)⟩

/-! ## Claim C9: laundry inspection adjudication -/

theorem dealCards_length (deck : List Card) (n : Nat) (h : n ≤ deck.length) :
    (dealCards deck n).1.length = n := by
  induction n generalizing deck with
  | zero => rfl
  | succ m ih =>
    rw [dealCards]
    have hne : deck ≠ [] := by
      intro hc
      rw [hc] at h
      simp at h
    rw [if_neg hne]
    dsimp only
    rw [List.length_cons, ih deck.dropLast (by rw [List.length_dropLast]; omega)]

theorem getLastD_mem {α : Type} : ∀ (l : List α) (d : α), l ≠ [] → l.getLastD d ∈ l := by
  intro l
  induction l with
  | nil => intro d h; exact absurd rfl h
  | cons a t ih =>
    intro d _
    rw [List.getLastD_cons]
    cases htn : t with
    | nil =>
      subst htn
      simp [List.getLastD]
    | cons b t2 =>
      subst htn
      exact List.mem_cons_of_mem a (ih a (by simp))

theorem dealCards_subset (n : Nat) : ∀ (deck : List Card), ∀ c ∈ (dealCards deck n).1,
    c ∈ deck := by
  induction n with
  | zero =>
    intro deck c hc
    simp [dealCards] at hc
  | succ m ih =>
    intro deck c hc
    rw [dealCards] at hc
    by_cases hne : deck = []
    · rw [if_pos hne] at hc
      simp at hc
    · rw [if_neg hne] at hc
      dsimp only at hc
      rcases List.mem_cons.mp hc with h | h
      · rw [h]
        exact getLastD_mem deck placeholderCard hne
      · exact List.dropLast_subset deck (ih deck.dropLast c h)

/-- Claim C9, confirmed: claim validity is a pure function of the hand
snapshot stored in the pending claim — "witte" iff exactly 4 face cards,
"vuile" iff exactly 3 face cards plus exactly one 7; on inspection the
claimant always receives a fresh 4-card hand drawn from the remaining deck;
a valid claim costs the inspector one point, an invalid claim costs the
claimant one point and flips the claimant's hand visible for the rest of
the round. -/
theorem claim9_laundry_inspection (gs : GameState) (pl : PendingLaundry) (insp : Nat)
    (hpl : gs.pendingLaundry = some pl)
    (hdeck : 4 ≤ gs.deck.length)
    (hclen : pl.playerIndex < gs.players.length)
    (hilen : insp < gs.players.length)
    (hne : insp ≠ pl.playerIndex) :
    (∀ h : List Card, isWitteWas h = true ↔
      (h.filter (fun c => (["J", "Q", "K", "A"] : List String).contains c.rank)).length = 4) ∧
    (∀ h : List Card, isVuileWas h = true ↔
      ((h.filter (fun c => (["J", "Q", "K", "A"] : List String).contains c.rank)).length = 3 ∧
       (h.filter (fun c => decide (c.rank = "7"))).length = 1)) ∧
    ((processLaundryInspection gs insp).players.getD pl.playerIndex defaultPlayer).hand.length
      = 4 ∧
    (∀ c ∈ ((processLaundryInspection gs insp).players.getD pl.playerIndex
      defaultPlayer).hand, c ∈ gs.deck) ∧
    ((if pl.type = "witte" then isWitteWas pl.cards else isVuileWas pl.cards) = true →
      ((processLaundryInspection gs insp).players.getD insp defaultPlayer).points =
        (gs.players.getD insp defaultPlayer).points + 1 ∧
      ((processLaundryInspection gs insp).players.getD pl.playerIndex defaultPlayer).points =
        (gs.players.getD pl.playerIndex defaultPlayer).points ∧
      ((processLaundryInspection gs insp).players.getD pl.playerIndex
        defaultPlayer).cardsVisible =
        (gs.players.getD pl.playerIndex defaultPlayer).cardsVisible) ∧
    ((if pl.type = "witte" then isWitteWas pl.cards else isVuileWas pl.cards) = false →
      ((processLaundryInspection gs insp).players.getD pl.playerIndex defaultPlayer).points =
        (gs.players.getD pl.playerIndex defaultPlayer).points + 1 ∧
      ((processLaundryInspection gs insp).players.getD pl.playerIndex
        defaultPlayer).cardsVisible = true ∧
      ((processLaundryInspection gs insp).players.getD insp defaultPlayer).points =
        (gs.players.getD insp defaultPlayer).points) := by
  have hplayers : (processLaundryInspection gs insp).players =
      (if (if pl.type = "witte" then isWitteWas pl.cards else isVuileWas pl.cards) = true then
        modifyAt (modifyAt gs.players pl.playerIndex
          (fun p => { p with hand := (dealCards gs.deck 4).1 })) insp
          (fun p => { p with points := p.points + 1 })
      else
        modifyAt (modifyAt gs.players pl.playerIndex
          (fun p => { p with hand := (dealCards gs.deck 4).1 })) pl.playerIndex
          (fun p => { p with points := p.points + 1, cardsVisible := true })) := by
    unfold processLaundryInspection
    rw [hpl]
    dsimp only
    rw [apply_ite GameState.players, apply_ite GameState.players]
    dsimp only
    rw [ite_self]
  have hmodlen : ∀ (f : Player → Player),
      pl.playerIndex < (modifyAt gs.players pl.playerIndex f).length := by
    intro f
    rw [modifyAt_length]
    exact hclen
  refine ⟨?_, ?_, ?_, ?_, ?_, ?_⟩
  · intro h
    unfold isWitteWas
    rw [decide_eq_true_eq]
  · intro h
    unfold isVuileWas
    simp only [Bool.and_eq_true, decide_eq_true_eq]
  · rw [hplayers]
    by_cases hv : (if pl.type = "witte" then isWitteWas pl.cards else isVuileWas pl.cards) = true
    · rw [if_pos hv, modifyAt_getD_ne _ _ _ _ _ hne, modifyAt_getD_self _ _ _ _ hclen]
      exact dealCards_length gs.deck 4 hdeck
    · rw [if_neg hv, modifyAt_getD_self _ _ _ _ (hmodlen _),
        modifyAt_getD_self _ _ _ _ hclen]
      exact dealCards_length gs.deck 4 hdeck
  · rw [hplayers]
    by_cases hv : (if pl.type = "witte" then isWitteWas pl.cards else isVuileWas pl.cards) = true
    · rw [if_pos hv, modifyAt_getD_ne _ _ _ _ _ hne, modifyAt_getD_self _ _ _ _ hclen]
      exact fun c hc => dealCards_subset 4 gs.deck c hc
    · rw [if_neg hv, modifyAt_getD_self _ _ _ _ (hmodlen _),
        modifyAt_getD_self _ _ _ _ hclen]
      exact fun c hc => dealCards_subset 4 gs.deck c hc
  · intro hv
    rw [hplayers, if_pos hv]
    refine ⟨?_, ?_, ?_⟩
    · rw [modifyAt_getD_self _ _ _ _ (by rw [modifyAt_length]; exact hilen),
        modifyAt_getD_ne _ _ _ _ _ (Ne.symm hne)]
    · rw [modifyAt_getD_ne _ _ _ _ _ hne, modifyAt_getD_self _ _ _ _ hclen]
    · rw [modifyAt_getD_ne _ _ _ _ _ hne, modifyAt_getD_self _ _ _ _ hclen]
  · intro hv
    rw [hplayers, if_neg (by rw [hv]; simp)]
    refine ⟨?_, ?_, ?_⟩
    · rw [modifyAt_getD_self _ _ _ _ (hmodlen _), modifyAt_getD_self _ _ _ _ hclen]
    · rw [modifyAt_getD_self _ _ _ _ (hmodlen _)]
    · rw [modifyAt_getD_ne _ _ _ _ _ (fun hcon => hne hcon.symm),
        modifyAt_getD_ne _ _ _ _ _ (fun hcon => hne hcon.symm)]

/-- Witness for `claim9_laundry_inspection` at Scenario D: seat 0's "vuile"
claim over a two-face-card hand fails the predicate; seat 1 inspects; seat 0
is penalised one point, its cards become visible, and it receives 4 freshly
dealt cards. -/
theorem claim9_laundry_inspection_witness :
    ((processLaundryInspection (processSubmitLaundry bluffHandState 0 "vuile") 1).players.getD
        0 defaultPlayer).points = 1 ∧
    ((processLaundryInspection (processSubmitLaundry bluffHandState 0 "vuile") 1).players.getD
        0 defaultPlayer).cardsVisible = true ∧
    ((processLaundryInspection (processSubmitLaundry bluffHandState 0 "vuile") 1).players.getD
        0 defaultPlayer).hand.length = 4 := by
  have h := claim9_laundry_inspection (processSubmitLaundry bluffHandState 0 "vuile")
    { playerIndex := 0, type := "vuile",
      cards := [spadeEight, diamondNine, spadeJack, { suit := "♠", rank := "Q", value := 2 }] }
    1 (by decide) (by decide) (by decide) (by decide) (by decide)
  have hinv := h.2.2.2.2.2 (by decide)
  exact ⟨by rw [hinv.1]; decide, hinv.2.1, h.2.2.1⟩

/-! ## Claim C10: blind-toep fold penalty -/

theorem checkBlindToepResponses_preserves (g : GameState) :
    (checkBlindToepResponses g).players = g.players ∧
    (checkBlindToepResponses g).playersInRound = g.playersInRound := by
  unfold checkBlindToepResponses
  cases hb : g.blindToepResponses with
  | none => exact ⟨rfl, rfl⟩
  | some resp =>
    dsimp only
    split
    · exact ⟨rfl, rfl⟩
    · exact ⟨rfl, rfl⟩

/-- Claim C10, confirmed: the blind-toep round setup forces `stakes` to 3
and sets every seat's `playerStakesOnEntry` to 3, and a fold during the
`blindToepResponse` sub-phase immediately penalises the folding seat by the
entry stake it holds at that moment (hence 3) and removes exactly that seat
from the round. -/
theorem claim10_blind_fold :
    (∀ (gs : GameState) (shuffledDeck : List Card) (c : Int),
      (∀ i, i < gs.players.length → i ∈ gs.playersInRound →
        (gs.players.getD i defaultPlayer).points ≠ 9) →
      gs.blindToepCaller = some c → 0 ≤ c →
      (startNextRound gs shuffledDeck).playerStakesOnEntry =
        List.replicate gs.players.length 3 ∧
      (startNextRound gs shuffledDeck).stakes = 3 ∧
      (startNextRound gs shuffledDeck).pendingBlindToepResponse = true) ∧
    (∀ (gs : GameState) (resp : List (Option Response)) (i : Nat),
      gs.gamePhase = GamePhase.blindToepResponse →
      gs.blindToepResponses = some resp →
      resp.get? i = some none →
      i < gs.players.length →
      ((processFoldToToep gs i).players.getD i defaultPlayer).points =
        (gs.players.getD i defaultPlayer).points + gs.playerStakesOnEntry.getD i 0 ∧
      i ∉ (processFoldToToep gs i).playersInRound ∧
      (∀ k ∈ gs.playersInRound, k ≠ i → k ∈ (processFoldToToep gs i).playersInRound)) := by
  constructor
  · intro gs shuffledDeck c hno hcaller hc
    unfold startNextRound
    dsimp only
    rw [if_neg ?harm]
    case harm =>
      rw [createDeckAndDeal_snd_armoede]
      intro habs
      obtain ⟨i, h1, h2, h3⟩ := (hasArmoede_iff _).mp habs
      rw [createDeckAndDeal_fst] at h1 h2 h3
      dsimp only at h1 h2 h3
      rw [dealToPlayers_length, List.length_map] at h1
      rw [dealToPlayers_points, map_clearVisible_points] at h3
      exact hno i h1 h2 h3
    rw [if_pos ?hblind]
    case hblind =>
      rw [createDeckAndDeal_fst]
      dsimp only
      rw [hcaller]
      exact decide_eq_true hc
    have hlen : (createDeckAndDeal { gs with
        gamePhase := GamePhase.laundry,
        currentPlayer := match gs.lastRoundWinner with
          | some w => if w ∈ gs.playersInRound then w else gs.playersInRound.getD 0 0
          | none => gs.playersInRound.getD 0 0,
        players := gs.players.map (fun p => { p with cardsVisible := false }) }
        shuffledDeck).1.players.length = gs.players.length := by
      rw [createDeckAndDeal_fst]
      dsimp only
      rw [dealToPlayers_length, List.length_map]
    refine ⟨?_, rfl, rfl⟩
    dsimp only
    rw [hlen]
  · intro gs resp i hph hresp hpend hip
    unfold processFoldToToep
    rw [if_neg ?hnotp]
    case hnotp =>
      rintro ⟨h1, _⟩
      rw [hph] at h1
      exact GamePhase.noConfusion h1
    have hpn : (pendingNull gs.blindToepResponses i) = true := by
      rw [hresp]
      unfold pendingNull
      exact decide_eq_true hpend
    rw [if_pos ⟨hph, hpn⟩]
    obtain ⟨hp, hr⟩ := checkBlindToepResponses_preserves
      { gs with
        blindToepResponses := setRespAt gs.blindToepResponses i Response.fold,
        players := modifyAt gs.players i
          (fun p => { p with points := p.points + gs.playerStakesOnEntry.getD i 0 }),
        playersInRound := gs.playersInRound.filter (fun p => decide (p ≠ i)) }
    rw [hp, hr]
    dsimp only
    refine ⟨?_, ?_, ?_⟩
    · rw [modifyAt_getD_self _ _ _ _ hip]
    · intro hcon
      have := (List.mem_filter.mp hcon).2
      rw [decide_eq_true_eq] at this
      exact this rfl
    · intro k hk hki
      exact List.mem_filter.mpr ⟨hk, decide_eq_true hki⟩

/-- Witness for `claim10_blind_fold`: from `blindQueuedState` the next-round
setup fills the entry stakes with 3, and in the resulting blind-response
sub-phase seat 0's fold costs exactly 3 points and removes seat 0 from the
round. -/
theorem claim10_blind_fold_witness :
    (startNextRound blindQueuedState fillerDeck).playerStakesOnEntry = [3, 3, 3] ∧
    ((processFoldToToep (newRoundLaundryTimerBody
        (startNextRound blindQueuedState fillerDeck)) 0).players.getD 0 defaultPlayer).points
      = 4 ∧
    0 ∉ (processFoldToToep (newRoundLaundryTimerBody
        (startNextRound blindQueuedState fillerDeck)) 0).playersInRound := by
  obtain ⟨ha, hb⟩ := claim10_blind_fold
  have h1 := ha blindQueuedState fillerDeck 2 (by decide) (by decide) (by decide)
  refine ⟨by rw [h1.1]; decide, ?_, ?_⟩
  · have h2 := hb (newRoundLaundryTimerBody (startNextRound blindQueuedState fillerDeck))
      [none, none, some Response.accept] 0 (by decide) (by decide) (by decide) (by decide)
    rw [h2.1]
    decide
  · exact (hb (newRoundLaundryTimerBody (startNextRound blindQueuedState fillerDeck))
      [none, none, some Response.accept] 0 (by decide) (by decide) (by decide)
      (by decide)).2.1

end Toepen
